import Mathlib

/-!
# Emerald-Engine: culling, bounding spheres and transforms of `Model.cpp`

A shallow embedding of `src/Model.cpp`: the culling subsystem
(`Model::get_light_active`, `Model::get_center_point_world`, `Model::cull_me`,
`Model::cull_models`, `Model::generate_bounding_sphere`), the mutators
(`Model::attach_light`, `Model::move_to`, `Model::move`, `Model::rotate`) and the two
constructors, and of the shader roles declared in `src/Renderer.hpp`, together with
the properties proved about them.

Conventions of the embedding.

* `GLfloat` / `float` values are elements of an arbitrary linearly ordered field `F`
  (exact arithmetic; every definition is executable at `F = ℚ`).  The square root
  used by `glm::length` is a parameter `sqrt : F → F`.
* `unsigned` counters are natural numbers reduced modulo `2 ^ 32` after every
  increment or addition.  `size_t` arithmetic wraps modulo `2 ^ 64`.
* Pointers to `Light` objects are addresses (`Nat`) into a heap `Nat → Light F`.
  The registries `loaded_models` / `loaded_flat_models` hold pointers to pairwise
  distinct `Model` objects (each constructor call pushes the freshly built object
  into exactly one registry), and each `Model` owns the `Mesh` objects created for it
  by `load_mesh`; they are embedded as lists of values.
* The constructors are embedded on a heap of `Model` objects with the registries as
  lists of addresses (`World`); `World.scene` dereferences them into the lists of
  values that culling works on.  The meshes produced by `load(path)` (Assimp) and the
  library function `glm::rotate` are parameters.
* The array `gpu_spheres[_MAX_MODELS_]` is written by the code without any bounds
  check.  It is embedded as an unbounded memory `Nat → gpu_sphere F`; the ghost field
  `write_log` records every write (index and value) so that statements about the
  bound `_MAX_MODELS_` can be made.  The ghost field `frustum_log` records every
  evaluation of `Camera::sphere_in_frustum`.
-/

namespace Emerald

/-! ## glm vectors and matrices -/

/-- Embedding of `glm::vec3`. -/
structure Vec3 (F : Type) where
  x : F
  y : F
  z : F
deriving DecidableEq, Repr

/-- Embedding of `glm::vec4`. -/
structure Vec4 (F : Type) where
  x : F
  y : F
  z : F
  w : F
deriving DecidableEq, Repr

/-- Embedding of `glm::mat4`, stored by columns as in glm (`m[j]` is column `j`). -/
structure Mat4 (F : Type) where
  c0 : Vec4 F
  c1 : Vec4 F
  c2 : Vec4 F
  c3 : Vec4 F
deriving DecidableEq, Repr

section Algebra

variable {F : Type}

/-- The glm constructor `vec4(v, w)`. -/
def vec4 (v : Vec3 F) (w : F) : Vec4 F := ⟨v.x, v.y, v.z, w⟩

/-- The glm conversion `vec3(v)` of a `vec4`: the first three components. -/
def vec3 (v : Vec4 F) : Vec3 F := ⟨v.x, v.y, v.z⟩

/-- Componentwise sum `a + b` of two `vec3`. -/
def Vec3.add [Add F] (a b : Vec3 F) : Vec3 F := ⟨a.x + b.x, a.y + b.y, a.z + b.z⟩

/-- Componentwise difference `a - b` of two `vec3`. -/
def Vec3.sub [Sub F] (a b : Vec3 F) : Vec3 F := ⟨a.x - b.x, a.y - b.y, a.z - b.z⟩

/-- Scalar multiple `s * v` of a `vec3`. -/
def Vec3.smul [Mul F] (s : F) (v : Vec3 F) : Vec3 F := ⟨s * v.x, s * v.y, s * v.z⟩

/-- The glm function `dot(a, b)` on `vec3`. -/
def Vec3.dot [Add F] [Mul F] (a b : Vec3 F) : F := a.x * b.x + a.y * b.y + a.z * b.z

/-- The glm function `length(v) = sqrt(dot(v, v))`, over the square root `sqrt`. -/
def length [Add F] [Mul F] (sqrt : F → F) (v : Vec3 F) : F := sqrt (Vec3.dot v v)

/-- The glm product `m * v` of a `mat4` with a `vec4`:
`m[0] * v.x + m[1] * v.y + m[2] * v.z + m[3] * v.w`. -/
def Mat4.mulVec [Add F] [Mul F] (m : Mat4 F) (v : Vec4 F) : Vec4 F :=
  ⟨m.c0.x * v.x + m.c1.x * v.y + m.c2.x * v.z + m.c3.x * v.w,
   m.c0.y * v.x + m.c1.y * v.y + m.c2.y * v.z + m.c3.y * v.w,
   m.c0.z * v.x + m.c1.z * v.y + m.c2.z * v.z + m.c3.z * v.w,
   m.c0.w * v.x + m.c1.w * v.y + m.c2.w * v.z + m.c3.w * v.w⟩

/-- The glm constructor `mat4(d)`: the diagonal matrix with `d` on the diagonal. -/
def mat4 [Zero F] (d : F) : Mat4 F :=
  ⟨⟨d, 0, 0, 0⟩, ⟨0, d, 0, 0⟩, ⟨0, 0, d, 0⟩, ⟨0, 0, 0, d⟩⟩

/-- Componentwise sum of two `vec4`. -/
def Vec4.add [Add F] (a b : Vec4 F) : Vec4 F := ⟨a.x + b.x, a.y + b.y, a.z + b.z, a.w + b.w⟩

/-- The glm product `v * s` of a `vec4` with a scalar. -/
def Vec4.smul [Mul F] (v : Vec4 F) (s : F) : Vec4 F := ⟨v.x * s, v.y * s, v.z * s, v.w * s⟩

/-- The glm function `translate(m, v)`: `m` with its last column replaced by
`m[0] * v[0] + m[1] * v[1] + m[2] * v[2] + m[3]`. -/
def translate [Add F] [Mul F] (m : Mat4 F) (v : Vec3 F) : Mat4 F :=
  { m with c3 := (((m.c0.smul v.x).add (m.c1.smul v.y)).add (m.c2.smul v.z)).add m.c3 }

end Algebra

/-! ## Data model -/

/-- Wrap-around bound of the C++ type `unsigned` (`uint`). -/
def UINT_MOD : Nat := 2 ^ 32

/-- Wrap-around bound of the C++ type `size_t`. -/
def SIZE_MOD : Nat := 2 ^ 64

/-- Largest value of the C++ type `int`. -/
def INT_MAX : Nat := 2 ^ 31 - 1

/-- The record `gpu_sphere` stored in `Model::gpu_spheres`. -/
structure gpu_sphere (F : Type) where
  position : Vec3 F
  radius : F
deriving DecidableEq, Repr

/-- The fields of `Light` that `Model.cpp` reads or writes. -/
structure Light (F : Type) where
  position : Vec3 F
  color : Vec3 F
  active : Bool
deriving DecidableEq, Repr

/-- The record `light_container`: a pointer to a `Light` and its position relative
to the model. -/
structure light_container (F : Type) where
  light : Nat
  relative_pos : Vec3 F
deriving DecidableEq, Repr

/-- The fields of `Mesh` that `Model.cpp` reads or writes in its culling code. -/
structure Mesh (F : Type) where
  vertices : List F
  bounding_sphere_center : Vec3 F
  bounding_sphere_radius : F
  draw_me : Bool
deriving DecidableEq, Repr

/-- The per-object fields of `Model` used by the transform, light and culling code.
`lights_counted` is the class invariant tying the counter `num_lights` to the vector
`attached_lights`: both start empty and are changed only together, by
`attach_light`. -/
structure Model (F : Type) where
  rot_matrix : Mat4 F
  scale : F
  scale_matrix : Mat4 F
  world_coord : Vec3 F
  move_matrix : Mat4 F
  m2w_matrix : Mat4 F
  num_lights : Nat
  attached_lights : List (light_container F)
  lights_counted : num_lights = attached_lights.length
  meshes : List (Mesh F)
  bounding_sphere_center : Vec3 F
  bounding_sphere_radius : F
  draw_me : Bool

/-- The collaborator `Camera` (declared outside `Model.cpp`): its frustum test and
its view matrix, both pure. -/
structure Camera (F : Type) where
  sphere_in_frustum : Vec3 F → F → Bool
  get_view_matrix : Mat4 F

/-- The static members of `Model` that culling writes, with two ghost logs. -/
structure Statics (F : Type) where
  /-- The static counter `Model::models_drawn`. -/
  models_drawn : Nat
  /-- The static array `Model::gpu_spheres`, as an unbounded memory. -/
  gpu_spheres : Nat → gpu_sphere F
  /-- Ghost: every write into `gpu_spheres`, oldest first. -/
  write_log : List (Nat × gpu_sphere F)
  /-- Ghost: every sphere handed to `Camera::sphere_in_frustum`, oldest first. -/
  frustum_log : List (Vec3 F × F)

/-- The whole scene: the statics, the two registries and the heap of lights. -/
structure Scene (F : Type) extends Statics F where
  loaded_models : List (Model F)
  loaded_flat_models : List (Model F)
  lights : Nat → Light F

section Culling

variable {F : Type} [LinearOrderedField F]

/-- Embedding of `Model::get_center_point_world`. -/
def Model.get_center_point_world (m : Model F) : Vec3 F :=
  vec3 (m.m2w_matrix.mulVec (vec4 m.bounding_sphere_center 1))

/-- Modelled from the spec: `Mesh::get_center_point_world(m2w_matrix)` is defined in
`Mesh.cpp`, which is not part of the sources at hand; the sub-mesh sphere is
"transformed by the same model-to-world matrix", as the model's own center is. -/
def Mesh.get_center_point_world (me : Mesh F) (m2w_matrix : Mat4 F) : Vec3 F :=
  vec3 (m2w_matrix.mulVec (vec4 me.bounding_sphere_center 1))

/-- Embedding of `Model::get_light_active`: the `active` flag of the first attached
light when `num_lights > 0`, and `true` otherwise. -/
def Model.get_light_active (lights : Nat → Light F) (m : Model F) : Bool :=
  if h : m.num_lights > 0 then
    (lights (m.attached_lights.get ⟨0, m.lights_counted ▸ h⟩).light).active
  else true

/-- One evaluation of `camera.sphere_in_frustum(center, radius)`, logged. -/
def Statics.sphere_in_frustum (st : Statics F) (camera : Camera F) (center : Vec3 F)
    (radius : F) : Bool × Statics F :=
  (camera.sphere_in_frustum center radius,
   { st with frustum_log := st.frustum_log ++ [(center, radius)] })

/-- The assignment `gpu_spheres[i] = d`, logged. -/
def Statics.write_sphere (st : Statics F) (i : Nat) (d : gpu_sphere F) : Statics F :=
  { st with
    gpu_spheres := fun j => if j = i then d else st.gpu_spheres j
    write_log := st.write_log ++ [(i, d)] }

/-- The increment `Model::models_drawn++`. -/
def Statics.incr_models_drawn (st : Statics F) : Statics F :=
  { st with models_drawn := (st.models_drawn + 1) % UINT_MOD }

/-- The loop over `this->get_meshes()` in `Model::cull_me`: every mesh is tested
against the frustum, its flag is set to the outcome and passing meshes are counted. -/
def cull_meshes (camera : Camera F) (m2w_matrix : Mat4 F) (scale : F) :
    List (Mesh F) → Nat → Statics F → List (Mesh F) × Nat × Statics F
  | [], drawn_meshes, st => ([], drawn_meshes, st)
  | mesh :: rest, drawn_meshes, st =>
    let (draw_me, st1) :=
      st.sphere_in_frustum camera (mesh.get_center_point_world m2w_matrix)
        (mesh.bounding_sphere_radius * scale)
    let mesh1 := { mesh with draw_me := draw_me }
    let drawn_meshes1 := if draw_me then (drawn_meshes + 1) % UINT_MOD else drawn_meshes
    let (rest1, n, st2) := cull_meshes camera m2w_matrix scale rest drawn_meshes1 st1
    (mesh1 :: rest1, n, st2)

/-- The descriptor written by `Model::cull_me` for a drawable model: the two
assignments to `gpu_spheres[models_drawn].position` and `.radius`. -/
def Model.descriptor (camera : Camera F) (m : Model F) : gpu_sphere F :=
  { position := vec3 (camera.get_view_matrix.mulVec (vec4 m.get_center_point_world 1))
    radius := if m.bounding_sphere_radius < 10 then m.bounding_sphere_radius else 10 }

/-- Embedding of `Model::cull_me`.  Returns the number of drawn meshes, the model
after the call and the statics after the call.  The `&&` is short-circuit: the
frustum test is evaluated only when `get_light_active()` holds. -/
def Model.cull_me (camera : Camera F) (lights : Nat → Light F) (m : Model F)
    (st : Statics F) : Nat × Model F × Statics F :=
  let (draw_me, st1) :=
    if m.get_light_active lights then
      st.sphere_in_frustum camera m.get_center_point_world
        (m.bounding_sphere_radius * m.scale)
    else (false, st)
  let m1 := { m with draw_me := draw_me }
  if draw_me then
    let st2 := st1.write_sphere st1.models_drawn (m1.descriptor camera)
    let st3 := st2.incr_models_drawn
    let (meshes1, drawn_meshes, st4) :=
      cull_meshes camera m1.m2w_matrix m1.scale m1.meshes 0 st3
    (drawn_meshes, { m1 with meshes := meshes1 }, st4)
  else
    (0, m1, st1)

/-- One of the two loops of `Model::cull_models`: every model of the registry is
culled in order, the returned mesh counts are added to `meshes_drawn`, and
`models_drawn` is incremented once more for every model with a non-zero count. -/
def cull_loop (camera : Camera F) (lights : Nat → Light F) :
    List (Model F) → Nat → Statics F → List (Model F) × Nat × Statics F
  | [], meshes_drawn, st => ([], meshes_drawn, st)
  | model :: rest, meshes_drawn, st =>
    let (model_meshes_drawn, model1, st1) := model.cull_me camera lights st
    let meshes_drawn1 := (meshes_drawn + model_meshes_drawn) % UINT_MOD
    let st2 := if model_meshes_drawn ≠ 0 then st1.incr_models_drawn else st1
    let (rest1, total, st3) := cull_loop camera lights rest meshes_drawn1 st2
    (model1 :: rest1, total, st3)

/-- Embedding of `Model::cull_models`: reset `models_drawn`, cull the normal
registry, then the flat registry; return the total mesh count and the new scene. -/
def cull_models (camera : Camera F) (s : Scene F) : Nat × Scene F :=
  let st0 : Statics F := { s.toStatics with models_drawn := 0 }
  let (models1, meshes_drawn1, st1) := cull_loop camera s.lights s.loaded_models 0 st0
  let (flat1, meshes_drawn2, st2) :=
    cull_loop camera s.lights s.loaded_flat_models meshes_drawn1 st1
  (meshes_drawn2,
   { s with toStatics := st2, loaded_models := models1, loaded_flat_models := flat1 })

end Culling

/-! ## Closed forms of the culling pass

Derived quantities in which the results of `cull_me` and `cull_models` are expressed. -/

section CullingForms

variable {F : Type} [LinearOrderedField F]

/-- The sphere of a mesh that `Model::cull_me` hands to the frustum test: the mesh
center under `m2w_matrix` and the mesh radius times the model's scale. -/
def Mesh.world_sphere (m2w_matrix : Mat4 F) (scale : F) (me : Mesh F) : Vec3 F × F :=
  (me.get_center_point_world m2w_matrix, me.bounding_sphere_radius * scale)

/-- The frustum test of one mesh, as evaluated in the loop of `Model::cull_me`. -/
def Mesh.in_frustum (camera : Camera F) (m2w_matrix : Mat4 F) (scale : F) (me : Mesh F) :
    Bool :=
  camera.sphere_in_frustum (me.get_center_point_world m2w_matrix)
    (me.bounding_sphere_radius * scale)

/-- The mesh with its flag set to the outcome of its frustum test. -/
def Mesh.flagged (camera : Camera F) (m2w_matrix : Mat4 F) (scale : F) (me : Mesh F) :
    Mesh F :=
  { me with draw_me := me.in_frustum camera m2w_matrix scale }

/-- The decision taken at the head of `Model::cull_me`:
`get_light_active() && camera.sphere_in_frustum(center, radius * scale)`. -/
def Model.drawable (camera : Camera F) (lights : Nat → Light F) (m : Model F) : Bool :=
  m.get_light_active lights &&
    camera.sphere_in_frustum m.get_center_point_world (m.bounding_sphere_radius * m.scale)

/-- The value returned by `cull_me`, in closed form. -/
def Model.drawn_meshes (camera : Camera F) (lights : Nat → Light F) (m : Model F) : Nat :=
  if m.drawable camera lights then
    (m.meshes.countP (Mesh.in_frustum camera m.m2w_matrix m.scale)) % UINT_MOD
  else 0

/-- The model left behind by `cull_me`, in closed form. -/
def Model.culled (camera : Camera F) (lights : Nat → Light F) (m : Model F) : Model F :=
  if m.drawable camera lights then
    { m with
      draw_me := true
      meshes := m.meshes.map (Mesh.flagged camera m.m2w_matrix m.scale) }
  else { m with draw_me := false }

/-- The spheres tested by one call of `cull_me`, in order. -/
def Model.tested (camera : Camera F) (lights : Nat → Light F) (m : Model F) :
    List (Vec3 F × F) :=
  if m.get_light_active lights then
    (m.get_center_point_world, m.bounding_sphere_radius * m.scale) ::
      (if m.drawable camera lights then m.meshes.map (Mesh.world_sphere m.m2w_matrix m.scale)
       else [])
  else []

/-- The value of `models_drawn` after the loop of `cull_models` has handled the model
`m`, starting from the value `k`: one increment inside `cull_me` when the model is
drawable, one more in the loop when `cull_me` returned a non-zero count. -/
def Model.counter_after (camera : Camera F) (lights : Nat → Light F) (m : Model F)
    (k : Nat) : Nat :=
  let k1 := if m.drawable camera lights then (k + 1) % UINT_MOD else k
  if m.drawn_meshes camera lights ≠ 0 then (k1 + 1) % UINT_MOD else k1

/-- The value of `models_drawn` after a loop of `cull_models` over `ms` from `k`. -/
def loop_counter (camera : Camera F) (lights : Nat → Light F) :
    List (Model F) → Nat → Nat
  | [], k => k
  | m :: rest, k => loop_counter camera lights rest (m.counter_after camera lights k)

/-- The writes into `gpu_spheres` made by a loop of `cull_models` over `ms`, in order,
when `models_drawn` is `k` on entry. -/
def loop_writes (camera : Camera F) (lights : Nat → Light F) :
    List (Model F) → Nat → List (Nat × gpu_sphere F)
  | [], _ => []
  | m :: rest, k =>
    (if m.drawable camera lights then [(k, m.descriptor camera)] else []) ++
      loop_writes camera lights rest (m.counter_after camera lights k)

/-- The memory obtained from `mem` by performing the writes `ws` in order. -/
def apply_writes (ws : List (Nat × gpu_sphere F)) (mem : Nat → gpu_sphere F) :
    Nat → gpu_sphere F :=
  ws.foldl (fun mem w => fun j => if j = w.1 then w.2 else mem j) mem

/-- Every model of both registries, in the order in which `cull_models` visits them. -/
def Scene.all_models (s : Scene F) : List (Model F) :=
  s.loaded_models ++ s.loaded_flat_models

/-- The value of `get_light_active()` in terms of the vector `attached_lights`: the
flag of the first attached light, `true` when there is none. -/
def first_light_active (lights : Nat → Light F) : List (light_container F) → Bool
  | [] => true
  | c :: _ => (lights c.light).active

end CullingForms

/-! ## Bounding spheres -/

section Bounding

variable {F : Type} [LinearOrderedField F]

/-- The six running extrema `x_max, y_max, z_max, x_min, y_min, z_min` (or their
`_local` twins) of `Model::generate_bounding_sphere`. -/
structure Extrema (F : Type) where
  x_max : F
  y_max : F
  z_max : F
  x_min : F
  y_min : F
  z_min : F
deriving DecidableEq, Repr

/-- The initialisation `x_max = v, y_max = v, z_max = v, x_min = v, y_min = v,
z_min = v`: all six extrema start at the same float `v`. -/
def Extrema.init (v : F) : Extrema F := ⟨v, v, v, v, v, v⟩

/-- The six comparisons of one loop iteration, for the vertex `(x, y, z)`. -/
def Extrema.update (e : Extrema F) (x y z : F) : Extrema F :=
  { x_max := if x > e.x_max then x else e.x_max
    y_max := if y > e.y_max then y else e.y_max
    z_max := if z > e.z_max then z else e.z_max
    x_min := if x < e.x_min then x else e.x_min
    y_min := if y < e.y_min then y else e.y_min
    z_min := if z < e.z_min then z else e.z_min }

/-- The vector `max_corner`. -/
def Extrema.max_corner (e : Extrema F) : Vec3 F := ⟨e.x_max, e.y_max, e.z_max⟩

/-- The vector `min_corner`. -/
def Extrema.min_corner (e : Extrema F) : Vec3 F := ⟨e.x_min, e.y_min, e.z_min⟩

/-- The vector `r_vector = 0.5f * (max_corner - min_corner)`. -/
def Extrema.r_vector (e : Extrema F) : Vec3 F :=
  Vec3.smul (1 / 2) (e.max_corner.sub e.min_corner)

/-- The sphere radius `length(r_vector)`. -/
def Extrema.radius (sqrt : F → F) (e : Extrema F) : F := length sqrt e.r_vector

/-- The sphere center `min_corner + r_vector`. -/
def Extrema.center (e : Extrema F) : Vec3 F := e.min_corner.add e.r_vector

/-- The loop bound `mesh->vertices.size() - 2`, computed in `size_t`: the difference
wraps around to `size + 2 ^ 64 - 2` when `size < 2`. -/
def size_minus_two (size : Nat) : Nat :=
  if 2 ≤ size then size - 2 else size + SIZE_MOD - 2

/-- The inner loop `for (int i = 0; i < mesh->vertices.size() - 2; i += 3)`, entered
with index `i`, global extrema `glob` and local extrema `loc`; `bound` is the value of
`mesh->vertices.size() - 2`, which the loop never changes.  Reading past the end of
`vertices` and overflowing the `int` index are undefined behaviour: `none`. -/
def scan_vertices (vertices : List F) (bound : Nat) (i : Nat) (glob loc : Extrema F) :
    Option (Extrema F × Extrema F) :=
  if i < bound then
    match vertices[i]?, vertices[i + 1]?, vertices[i + 2]? with
    | some x, some y, some z =>
      if i + 3 ≤ INT_MAX then
        scan_vertices vertices bound (i + 3) (glob.update x y z) (loc.update x y z)
      else none
    | _, _, _ => none
  else some (glob, loc)
termination_by bound - i

/-- The outer loop `for (auto mesh : this->meshes)`: every mesh gets the sphere of
its local extrema while the global extrema are carried along. -/
def scan_meshes (sqrt : F → F) :
    List (Mesh F) → Extrema F → Option (List (Mesh F) × Extrema F)
  | [], glob => some ([], glob)
  | mesh :: rest, glob =>
    match mesh.vertices[0]? with
    | none => none
    | some v_local =>
      match scan_vertices mesh.vertices (size_minus_two mesh.vertices.length) 0 glob
          (Extrema.init v_local) with
      | none => none
      | some (glob1, loc) =>
        let mesh1 : Mesh F :=
          { mesh with
            bounding_sphere_radius := loc.radius sqrt
            bounding_sphere_center := loc.center }
        match scan_meshes sqrt rest glob1 with
        | none => none
        | some (rest1, glob2) => some (mesh1 :: rest1, glob2)

/-- Embedding of `Model::generate_bounding_sphere`; `none` is undefined behaviour
(an out-of-range read of `meshes` or `vertices`, or `int` overflow). -/
def Model.generate_bounding_sphere (sqrt : F → F) (m : Model F) : Option (Model F) :=
  match m.meshes[0]? with
  | none => none
  | some mesh0 =>
    match mesh0.vertices[0]? with
    | none => none
    | some v =>
      match scan_meshes sqrt m.meshes (Extrema.init v) with
      | none => none
      | some (meshes1, glob) =>
        some { m with
               meshes := meshes1
               bounding_sphere_radius := glob.radius sqrt
               bounding_sphere_center := glob.center }

/-- The vertex positions held by a vertex stream: consecutive triples of floats. -/
def positions : List F → List (Vec3 F)
  | x :: y :: z :: rest => ⟨x, y, z⟩ :: positions rest
  | _ => []

/-- One loop iteration for the vertex `p`. -/
def Extrema.add_point (e : Extrema F) (p : Vec3 F) : Extrema F := e.update p.x p.y p.z

/-- The box spanned by the extrema contains the point `p`. -/
def Extrema.contains (e : Extrema F) (p : Vec3 F) : Prop :=
  e.x_min ≤ p.x ∧ p.x ≤ e.x_max ∧ e.y_min ≤ p.y ∧ p.y ≤ e.y_max ∧
    e.z_min ≤ p.z ∧ p.z ≤ e.z_max

/-- The box spanned by `e` lies inside the box spanned by `e1`. -/
def Extrema.within (e e1 : Extrema F) : Prop :=
  e1.x_min ≤ e.x_min ∧ e.x_max ≤ e1.x_max ∧ e1.y_min ≤ e.y_min ∧ e.y_max ≤ e1.y_max ∧
    e1.z_min ≤ e.z_min ∧ e.z_max ≤ e1.z_max

/-- Squared Euclidean distance `|p - c|^2`. -/
def dist_sq (p c : Vec3 F) : F := Vec3.dot (p.sub c) (p.sub c)

/-- A mesh as `load_mesh` produces it from a non-empty `aiMesh`: a stream of `3 * n`
floats with `n ≥ 1`, short enough for the `int` loop index. -/
def Mesh.has_vertices (me : Mesh F) : Prop :=
  ∃ n : Nat, 1 ≤ n ∧ me.vertices.length = 3 * n ∧ 3 * n ≤ INT_MAX

/-- What `generate_bounding_sphere` leaves on a mesh `me1` made from `me`: the same
data, with the sphere of some box that contains every vertex of the mesh. -/
def Mesh.sphere_from_box (sqrt : F → F) (me me1 : Mesh F) : Prop :=
  me1.vertices = me.vertices ∧ me1.draw_me = me.draw_me ∧
    ∃ loc : Extrema F, me1.bounding_sphere_center = loc.center ∧
      me1.bounding_sphere_radius = loc.radius sqrt ∧
      ∀ p ∈ positions me.vertices, loc.contains p

end Bounding

/-! ## Notions used by the statements -/

section Notions

variable {F : Type} [LinearOrderedField F]

/-- A visible mesh sits under a visible model: every mesh of `m` whose `draw_me` flag
is set belongs to a model whose `draw_me` flag is set. -/
def Model.flags_consistent (m : Model F) : Prop :=
  ∀ me ∈ m.meshes, me.draw_me = true → m.draw_me = true

/-- The visibility invariant over both registries. -/
def Scene.flags_consistent (s : Scene F) : Prop :=
  ∀ m ∈ s.all_models, m.flags_consistent

/-- The states reachable from `s0` by one or more calls of `cull_models`, each call
with a camera of its own and after an arbitrary change of the light states. -/
inductive Reachable (s0 : Scene F) : Scene F → Prop
  | first (camera : Camera F) (lights : Nat → Light F) :
      Reachable s0 (cull_models camera { s0 with lights := lights }).2
  | next {s : Scene F} (camera : Camera F) (lights : Nat → Light F) :
      Reachable s0 s → Reachable s0 (cull_models camera { s with lights := lights }).2

end Notions

/-! ## Concrete scenes -/

/-- A mesh with a sphere of radius `1` around the local origin; the vertex stream
is empty, as after `clear_mem()` at the end of the constructor. -/
def small_mesh : Mesh ℚ :=
  { vertices := []
    bounding_sphere_center := ⟨0, 0, 0⟩
    bounding_sphere_radius := 1
    draw_me := false }

/-- A model of scale `1` placed at `p` without rotation, with a bounding sphere of
radius `2` around its local origin, the single mesh `small_mesh` and the attached lights `ls`;
`flag` and `mesh_flag` are the `draw_me` flags of the model and of its mesh. -/
def model_with_flags (p : Vec3 ℚ) (ls : List (light_container ℚ)) (flag mesh_flag : Bool) :
    Model ℚ :=
  { rot_matrix := mat4 1
    scale := 1
    scale_matrix := mat4 1
    world_coord := p
    move_matrix := translate (mat4 1) p
    m2w_matrix := translate (mat4 1) p
    num_lights := ls.length
    attached_lights := ls
    lights_counted := rfl
    meshes := [{ small_mesh with draw_me := mesh_flag }]
    bounding_sphere_center := ⟨0, 0, 0⟩
    bounding_sphere_radius := 2
    draw_me := flag }

/-- The model `model_with_flags p ls` with both flags cleared. -/
def model_at (p : Vec3 ℚ) (ls : List (light_container ℚ)) : Model ℚ :=
  model_with_flags p ls false false

/-- A camera at the origin looking down `-Z` whose frustum is the slab of depths
`1` to `100`, unbounded sideways. -/
def cam_front : Camera ℚ :=
  { sphere_in_frustum := fun c r => decide (c.z - r ≤ -1 ∧ -100 ≤ c.z + r)
    get_view_matrix := mat4 1 }

/-- A camera at the origin looking down `+Z`, with depths `1` to `100`. -/
def cam_back : Camera ℚ :=
  { sphere_in_frustum := fun c r => decide (1 ≤ c.z + r ∧ c.z - r ≤ 100)
    get_view_matrix := mat4 1 }

/-- A camera looking down `-Z` whose far plane is at depth `3`. -/
def cam_short : Camera ℚ :=
  { sphere_in_frustum := fun c r => decide (c.z - r ≤ -1 ∧ -3 ≤ c.z + r)
    get_view_matrix := mat4 1 }

/-- The statics at program start: zero-initialised, with empty ghost logs. -/
def statics_zero : Statics ℚ :=
  { models_drawn := 0
    gpu_spheres := fun _ => ⟨⟨0, 0, 0⟩, 0⟩
    write_log := []
    frustum_log := [] }

/-- A heap in which every light is active. -/
def lights_on : Nat → Light ℚ := fun _ => ⟨⟨0, 0, 0⟩, ⟨1, 1, 1⟩, true⟩

/-- A heap in which the light at address `0` is switched off and all others are on. -/
def lights_first_off : Nat → Light ℚ := fun a => ⟨⟨0, 0, 0⟩, ⟨1, 1, 1⟩, decide (a ≠ 0)⟩

/-- One model at `(0, 0, -5)` in the normal registry, all flags cleared. -/
def scene_one : Scene ℚ :=
  { statics_zero with
    loaded_models := [model_at ⟨0, 0, -5⟩ []]
    loaded_flat_models := []
    lights := lights_on }

/-- The scene `scene_one` after a pass with `cam_front` and a pass with `cam_back`. -/
def scene_one_turned : Scene ℚ :=
  (cull_models cam_back (cull_models cam_front scene_one).2).2

/-- The model of `scene_one` after a call of `cull_me` with `cam_front`. -/
def model_seen : Model ℚ :=
  ((model_at ⟨0, 0, -5⟩ []).cull_me cam_front lights_on statics_zero).2.1

/-- A model at `(0, 0, -5)` with two attached lights, at addresses `0` and `1`. -/
def model_two_lights : Model ℚ :=
  model_at ⟨0, 0, -5⟩ [⟨0, ⟨0, 1, 0⟩⟩, ⟨1, ⟨0, 2, 0⟩⟩]

/-- The model standing at `(i, 0, -5)`, without lights. -/
def model_in_row (i : Nat) : Model ℚ :=
  model_at ⟨(i : ℚ), 0, -5⟩ []

/-- A scene of `a + b` models side by side at depth `5`: the first `a` of them in the
normal registry, the other `b` in the flat registry. -/
def scene_rows (a b : Nat) : Scene ℚ :=
  { statics_zero with
    loaded_models := (List.range a).map model_in_row
    loaded_flat_models := (List.range' a b).map model_in_row
    lights := lights_on }

/-- Two models at depth `5` in the normal registry. -/
def scene_two : Scene ℚ :=
  { statics_zero with
    loaded_models := [model_at ⟨0, 0, -5⟩ [], model_at ⟨1, 0, -5⟩ []]
    loaded_flat_models := []
    lights := lights_on }

/-- A mesh as `load_mesh` leaves it: the vertex stream `vs`, no sphere computed yet. -/
def Mesh.of_vertices {F : Type} [LinearOrderedField F] (vs : List F) : Mesh F :=
  { vertices := vs
    bounding_sphere_center := ⟨0, 0, 0⟩
    bounding_sphere_radius := 0
    draw_me := false }

/-- A model with the identity transform, no light and the meshes `ms`, as the
one-argument constructor leaves it before `generate_bounding_sphere()`. -/
def Model.of_meshes {F : Type} [LinearOrderedField F] (ms : List (Mesh F)) : Model F :=
  { rot_matrix := mat4 1
    scale := 1
    scale_matrix := mat4 1
    world_coord := ⟨0, 0, 0⟩
    move_matrix := translate (mat4 1) ⟨0, 0, 0⟩
    m2w_matrix := mat4 1
    num_lights := 0
    attached_lights := []
    lights_counted := rfl
    meshes := ms
    bounding_sphere_center := ⟨0, 0, 0⟩
    bounding_sphere_radius := 0
    draw_me := false }

/-! ## Transform and light mutators -/

section Mutators

variable {F : Type} [LinearOrderedField F]

/-- The glm product `a * b` of two `mat4`: column `j` of the result is `a * b[j]`. -/
def Mat4.mul (a b : Mat4 F) : Mat4 F :=
  ⟨a.mulVec b.c0, a.mulVec b.c1, a.mulVec b.c2, a.mulVec b.c3⟩

/-- The glm function `scale(m, v)`: the first three columns of `m` multiplied by the
components of `v`, the last column kept. -/
def glm_scale (m : Mat4 F) (v : Vec3 F) : Mat4 F :=
  ⟨m.c0.smul v.x, m.c1.smul v.y, m.c2.smul v.z, m.c3⟩

/-- The assignment `light->position = p` on the heap of lights. -/
def set_light_position (lights : Nat → Light F) (light : Nat) (p : Vec3 F) : Nat → Light F :=
  fun a => if a = light then { lights a with position := p } else lights a

/-- Embedding of `Model::attach_light`: the light is moved to `m2w_matrix *
relative_pos`, the counter is incremented and the container is pushed. -/
def Model.attach_light (m : Model F) (lights : Nat → Light F) (light : Nat)
    (relative_pos : Vec3 F) : Model F × (Nat → Light F) :=
  let new_light : light_container F := ⟨light, relative_pos⟩
  let light_pos := vec3 (m.m2w_matrix.mulVec (vec4 relative_pos 1))
  let lights1 := set_light_position lights light light_pos
  ({ m with
     num_lights := m.num_lights + 1
     attached_lights := m.attached_lights ++ [new_light]
     lights_counted := by simp [m.lights_counted] },
   lights1)

/-- The loop `for (auto container : this->attached_lights)` of `move_to` and
`rotate`: every attached light is moved to `m2w_matrix * container.relative_pos`. -/
def update_lights (m2w_matrix : Mat4 F) :
    List (light_container F) → (Nat → Light F) → (Nat → Light F)
  | [], lights => lights
  | container :: rest, lights =>
    let new_pos := vec3 (m2w_matrix.mulVec (vec4 container.relative_pos 1))
    update_lights m2w_matrix rest (set_light_position lights container.light new_pos)

/-- Embedding of `Model::move_to`. -/
def Model.move_to (m : Model F) (lights : Nat → Light F) (world_coord : Vec3 F) :
    Model F × (Nat → Light F) :=
  let move_matrix := translate (mat4 1) world_coord
  let m2w_matrix := (move_matrix.mul m.rot_matrix).mul m.scale_matrix
  let m1 : Model F :=
    { m with world_coord := world_coord, move_matrix := move_matrix, m2w_matrix := m2w_matrix }
  (m1, update_lights m1.m2w_matrix m1.attached_lights lights)

/-- Embedding of `Model::move`. -/
def Model.move (m : Model F) (lights : Nat → Light F) (relative : Vec3 F) :
    Model F × (Nat → Light F) :=
  m.move_to lights (m.world_coord.add relative)

/-- Embedding of `Model::rotate`.  The library function `glm::rotate(m, angle, axis)`
(cosine, sine and a normalisation) is the parameter `glm_rotate`. -/
def Model.rotate (glm_rotate : Mat4 F → F → Vec3 F → Mat4 F) (m : Model F)
    (lights : Nat → Light F) (axis : Vec3 F) (angle : F) : Model F × (Nat → Light F) :=
  let rot_matrix := glm_rotate m.rot_matrix angle axis
  let m2w_matrix := (m.move_matrix.mul rot_matrix).mul m.scale_matrix
  let m1 : Model F := { m with rot_matrix := rot_matrix, m2w_matrix := m2w_matrix }
  (m1, update_lights m1.m2w_matrix m1.attached_lights lights)

/-- A call of one of the four mutators of a model. -/
inductive Mutator (F : Type) where
  | attach_light (light : Nat) (relative_pos : Vec3 F)
  | move_to (world_coord : Vec3 F)
  | move (relative : Vec3 F)
  | rotate (axis : Vec3 F) (angle : F)

/-- The effect of a mutator call on the model and on the heap of lights. -/
def Mutator.apply (glm_rotate : Mat4 F → F → Vec3 F → Mat4 F)
    (st : Model F × (Nat → Light F)) : Mutator F → Model F × (Nat → Light F)
  | .attach_light light relative_pos => st.1.attach_light st.2 light relative_pos
  | .move_to world_coord => st.1.move_to st.2 world_coord
  | .move relative => st.1.move st.2 relative
  | .rotate axis angle => st.1.rotate glm_rotate st.2 axis angle

/-- The light positions agree with the transform: every attached light sits at
`m2w_matrix * relative_pos`. -/
def Model.lights_consistent (lights : Nat → Light F) (m : Model F) : Prop :=
  ∀ c ∈ m.attached_lights,
    (lights c.light).position = vec3 (m.m2w_matrix.mulVec (vec4 c.relative_pos 1))

/-- The attached lights are pairwise distinct `Light` objects. -/
def Model.lights_distinct (m : Model F) : Prop :=
  (m.attached_lights.map (fun c => c.light)).Nodup

/-- The transform is composed: `m2w_matrix = move_matrix * rot_matrix * scale_matrix`
and `move_matrix` is the translation by `world_coord`. -/
def Model.transform_composed (m : Model F) : Prop :=
  m.m2w_matrix = (m.move_matrix.mul m.rot_matrix).mul m.scale_matrix ∧
    m.move_matrix = translate (mat4 1) m.world_coord

end Mutators

/-! ## Construction and the registries of pointers -/

section Construction

variable {F : Type} [LinearOrderedField F]

/-- The heap of `Model` objects together with the two static registries
`loaded_models` and `loaded_flat_models` as the vectors of pointers they are. -/
structure World (F : Type) where
  objects : Nat → Model F
  loaded_models : List Nat
  loaded_flat_models : List Nat

/-- The scene that culling works on: both registries dereferenced. -/
def World.scene (w : World F) (st : Statics F) (lights : Nat → Light F) : Scene F :=
  { st with
    loaded_models := w.loaded_models.map w.objects
    loaded_flat_models := w.loaded_flat_models.map w.objects
    lights := lights }

/-- The object under construction when `load(path)` has returned: the transform
members are assigned, `num_lights` is `0`, the vector of lights is empty and `meshes`
holds the meshes `loaded` that `load` pushed.  The constructors do not assign
`draw_me` (it holds `draw_me0`), and the sphere members are assigned only afterwards,
by `generate_bounding_sphere()`. -/
def Model.initialised (loaded : List (Mesh F)) (rot_matrix : Mat4 F) (scale : F)
    (scale_matrix : Mat4 F) (world_coord : Vec3 F) (draw_me0 : Bool) : Model F :=
  { rot_matrix := rot_matrix
    scale := scale
    scale_matrix := scale_matrix
    world_coord := world_coord
    move_matrix := translate (mat4 1) world_coord
    m2w_matrix := ((translate (mat4 1) world_coord).mul rot_matrix).mul scale_matrix
    num_lights := 0
    attached_lights := []
    lights_counted := rfl
    meshes := loaded
    bounding_sphere_center := ⟨0, 0, 0⟩
    bounding_sphere_radius := 0
    draw_me := draw_me0 }

/-- Embedding of the constructor `Model::Model(path)`; `loaded` stands for the meshes
that `load(path)` produces.  `none` is undefined behaviour inside
`generate_bounding_sphere()`. -/
def Model.construct_default (sqrt : F → F) (loaded : List (Mesh F)) (draw_me0 : Bool) :
    Option (Model F) :=
  (Model.initialised loaded (mat4 1) 1 (mat4 1) ⟨0, 0, 0⟩ draw_me0).generate_bounding_sphere
    sqrt

/-- The loop `for (auto mesh : this->meshes) mesh->clear_mem()` at the end of the
constructor; `Mesh::clear_mem` is defined outside `Model.cpp` and is a parameter. -/
def Model.clear_meshes (clear_mem : Mesh F → Mesh F) (m : Model F) : Model F :=
  { m with meshes := m.meshes.map clear_mem }

/-- Embedding of the constructor `Model::Model(path, rot_matrix, world_coord, scale,
flat)` for the object at address `this`; `loaded` stands for the meshes that
`load(path)` produces.  The object is stored on the heap in its final state and its
address is pushed on one registry.  `none` is undefined behaviour inside
`generate_bounding_sphere()`. -/
def Model.construct (sqrt : F → F) (clear_mem : Mesh F → Mesh F) (loaded : List (Mesh F))
    (rot_matrix : Mat4 F) (world_coord : Vec3 F) (scale : F) (flat : Bool) (draw_me0 : Bool)
    (this : Nat) (w : World F) : Option (World F) :=
  let scale_matrix := glm_scale (mat4 1) ⟨scale, scale, scale⟩
  match (Model.initialised loaded rot_matrix scale scale_matrix world_coord
      draw_me0).generate_bounding_sphere sqrt with
  | none => none
  | some m1 =>
    if flat = false then
      some
        { objects := fun a => if a = this then m1.clear_meshes clear_mem else w.objects a
          loaded_models := w.loaded_models ++ [this]
          loaded_flat_models := w.loaded_flat_models }
    else
      let m2 : Model F := { m1 with bounding_sphere_radius := m1.bounding_sphere_radius * 3 }
      some
        { objects := fun a => if a = this then m2.clear_meshes clear_mem else w.objects a
          loaded_models := w.loaded_models
          loaded_flat_models := w.loaded_flat_models ++ [this] }

/-- No pointer is held by both registries. -/
def World.registries_disjoint (w : World F) : Prop :=
  ∀ a, ¬ (a ∈ w.loaded_models ∧ a ∈ w.loaded_flat_models)

end Construction

/-! ## The shader roles of the renderer -/

/-- The private enumeration `Renderer::shader`. -/
inductive Renderer.shader where
  | FORWARD
  | GEOMETRY
  | DEFERRED
  | FLAT
  | G_COMPONENT
  | G_SPECULAR
deriving DecidableEq, Repr

/-- The numeric value of a role: enumerators without initialisers count up from `0`
in the order of declaration. -/
def Renderer.shader.value : Renderer.shader → Nat
  | .FORWARD => 0
  | .GEOMETRY => 1
  | .DEFERRED => 2
  | .FLAT => 3
  | .G_COMPONENT => 4
  | .G_SPECULAR => 5

/-- The declared length of the member `GLuint shaders[4]`. -/
def Renderer.shaders_length : Nat := 4

/-- What `glm::rotate(m, angle, axis)` computes for a quarter turn about the `z` axis
(cosine `0`, sine `1`, axis `(0, 0, 1)`): the columns `m[1]`, `-m[0]`, `m[2]`, `m[3]`. -/
def quarter_turn_z (m : Mat4 ℚ) (_angle : ℚ) (_axis : Vec3 ℚ) : Mat4 ℚ :=
  ⟨m.c1, ⟨-m.c0.x, -m.c0.y, -m.c0.z, -m.c0.w⟩, m.c2, m.c3⟩

/-- Two lights are attached to a model at `(0, 0, -5)`, which is then moved, turned
and moved again. -/
def light_show : List (Mutator ℚ) :=
  [.attach_light 0 ⟨0, 1, 0⟩, .attach_light 1 ⟨0, 2, 0⟩, .move_to ⟨1, 0, 0⟩,
    .rotate ⟨0, 0, 1⟩ 1, .move ⟨0, 0, 1⟩]

/-- The model at `(0, 0, -5)` after it has attached the light at address `0` at the
relative position `(0, 1, 0)`, together with the heap of lights. -/
def lamp_attached : Model ℚ × (Nat → Light ℚ) :=
  (model_at ⟨0, 0, -5⟩ []).attach_light lights_on 0 ⟨0, 1, 0⟩

/-- A second model, at `(1, 0, -5)`, then attaches the same light at address `0`. -/
def lamp_shared : Model ℚ × (Nat → Light ℚ) :=
  (model_at ⟨1, 0, -5⟩ []).attach_light lamp_attached.2 0 ⟨0, 1, 0⟩

/-- The first model then attaches a second light, the one at address `1`. -/
def lamp_second : Model ℚ × (Nat → Light ℚ) :=
  lamp_attached.1.attach_light lamp_shared.2 1 ⟨0, 2, 0⟩

/-- The world before any model is constructed: both registries are empty. -/
def world_empty : World ℚ :=
  { objects := fun _ => Model.of_meshes []
    loaded_models := []
    loaded_flat_models := [] }

/-- A triangle as `load` delivers it. -/
def triangle_mesh : Mesh ℚ := Mesh.of_vertices [1, 0, 0, 2, 0, 0, 1, -1, 0]

/-! # Theorems -/

/-! ## Lemmas on the culling pass -/

section CullingLemmas

variable {F : Type} [LinearOrderedField F]

theorem cull_meshes_eq (camera : Camera F) (m2w : Mat4 F) (scale : F) (ms : List (Mesh F)) :
    ∀ (n : Nat) (st : Statics F), n < UINT_MOD →
      cull_meshes camera m2w scale ms n st =
        (ms.map (Mesh.flagged camera m2w scale),
         (n + ms.countP (Mesh.in_frustum camera m2w scale)) % UINT_MOD,
         { st with frustum_log := st.frustum_log ++ ms.map (Mesh.world_sphere m2w scale) }) := by
  induction ms with
  | nil =>
    intro n st hn
    simp [cull_meshes, Nat.mod_eq_of_lt hn]
  | cons me rest ih =>
    intro n st hn
    simp only [cull_meshes, Statics.sphere_in_frustum]
    by_cases h : me.in_frustum camera m2w scale = true
    · have hlt : (n + 1) % UINT_MOD < UINT_MOD := Nat.mod_lt _ (by decide)
      have h2 := h
      unfold Mesh.in_frustum at h2
      simp only [h2, if_true]
      rw [ih _ _ hlt]
      simp [List.countP_cons, h, Nat.mod_add_mod, Nat.add_assoc, Nat.add_comm 1,
        Mesh.flagged, Mesh.world_sphere]
    · simp only [Bool.not_eq_true] at h
      have h2 := h
      unfold Mesh.in_frustum at h2
      simp only [h2, Bool.false_eq_true, if_false]
      rw [ih _ _ hn]
      simp [List.countP_cons, h, Mesh.flagged, Mesh.world_sphere]

theorem cull_me_eq (camera : Camera F) (lights : Nat → Light F) (m : Model F)
    (st : Statics F) :
    m.cull_me camera lights st =
      (m.drawn_meshes camera lights, m.culled camera lights,
       if m.drawable camera lights then
         { models_drawn := (st.models_drawn + 1) % UINT_MOD
           gpu_spheres := fun j =>
             if j = st.models_drawn then m.descriptor camera else st.gpu_spheres j
           write_log := st.write_log ++ [(st.models_drawn, m.descriptor camera)]
           frustum_log := st.frustum_log ++ m.tested camera lights }
       else { st with frustum_log := st.frustum_log ++ m.tested camera lights }) := by
  unfold Model.cull_me Model.drawn_meshes Model.culled Model.tested Model.drawable
  by_cases hl : m.get_light_active lights = true
  · by_cases hf : camera.sphere_in_frustum m.get_center_point_world
        (m.bounding_sphere_radius * m.scale) = true
    · simp only [hl, hf, if_true, Statics.sphere_in_frustum, Bool.and_self]
      rw [cull_meshes_eq _ _ _ _ _ _ (by decide)]
      simp [Statics.write_sphere, Statics.incr_models_drawn,
        Model.descriptor, Model.get_center_point_world]
    · simp only [Bool.not_eq_true] at hf
      simp [hl, hf, Statics.sphere_in_frustum]
  · simp only [Bool.not_eq_true] at hl
    simp [hl]

theorem apply_writes_append {G : Type} (ws1 ws2 : List (Nat × gpu_sphere G))
    (mem : Nat → gpu_sphere G) :
    apply_writes (ws1 ++ ws2) mem = apply_writes ws2 (apply_writes ws1 mem) := by
  simp [apply_writes, List.foldl_append]

theorem cull_loop_eq (camera : Camera F) (lights : Nat → Light F) (ms : List (Model F)) :
    ∀ (n : Nat) (st : Statics F), n < UINT_MOD →
      cull_loop camera lights ms n st =
        (ms.map (Model.culled camera lights),
         (n + (ms.map (Model.drawn_meshes camera lights)).sum) % UINT_MOD,
         { models_drawn := loop_counter camera lights ms st.models_drawn
           gpu_spheres :=
             apply_writes (loop_writes camera lights ms st.models_drawn) st.gpu_spheres
           write_log := st.write_log ++ loop_writes camera lights ms st.models_drawn
           frustum_log :=
             st.frustum_log ++ (ms.map (Model.tested camera lights)).flatten }) := by
  induction ms with
  | nil =>
    intro n st hn
    simp [cull_loop, loop_counter, loop_writes, apply_writes, Nat.mod_eq_of_lt hn]
  | cons m rest ih =>
    intro n st hn
    have hlt : (n + m.drawn_meshes camera lights) % UINT_MOD < UINT_MOD :=
      Nat.mod_lt _ (by decide)
    simp only [cull_loop, cull_me_eq]
    rw [ih _ _ hlt]
    by_cases hd : m.drawable camera lights = true
    · by_cases hz : m.drawn_meshes camera lights = 0
      · simp [hd, hz, loop_counter, loop_writes, Model.counter_after, apply_writes]
      · simp [hd, hz, loop_counter, loop_writes, Model.counter_after, apply_writes,
          Statics.incr_models_drawn, Nat.add_assoc]
    · simp only [Bool.not_eq_true] at hd
      have hz : m.drawn_meshes camera lights = 0 := by simp [Model.drawn_meshes, hd]
      simp [hd, hz, loop_counter, loop_writes, Model.counter_after]

theorem loop_counter_append (camera : Camera F) (lights : Nat → Light F)
    (ms1 ms2 : List (Model F)) (k : Nat) :
    loop_counter camera lights (ms1 ++ ms2) k =
      loop_counter camera lights ms2 (loop_counter camera lights ms1 k) := by
  induction ms1 generalizing k with
  | nil => rfl
  | cons m rest ih => simp [loop_counter, ih]

theorem loop_writes_append (camera : Camera F) (lights : Nat → Light F)
    (ms1 ms2 : List (Model F)) (k : Nat) :
    loop_writes camera lights (ms1 ++ ms2) k =
      loop_writes camera lights ms1 k ++
        loop_writes camera lights ms2 (loop_counter camera lights ms1 k) := by
  induction ms1 generalizing k with
  | nil => rfl
  | cons m rest ih => simp [loop_writes, loop_counter, ih]

theorem cull_models_eq (camera : Camera F) (s : Scene F) :
    cull_models camera s =
      (((s.all_models.map (Model.drawn_meshes camera s.lights)).sum) % UINT_MOD,
       { models_drawn := loop_counter camera s.lights s.all_models 0
         gpu_spheres := apply_writes (loop_writes camera s.lights s.all_models 0) s.gpu_spheres
         write_log := s.write_log ++ loop_writes camera s.lights s.all_models 0
         frustum_log := s.frustum_log ++ (s.all_models.map (Model.tested camera s.lights)).flatten
         loaded_models := s.loaded_models.map (Model.culled camera s.lights)
         loaded_flat_models := s.loaded_flat_models.map (Model.culled camera s.lights)
         lights := s.lights }) := by
  unfold cull_models
  simp only []
  rw [cull_loop_eq camera s.lights s.loaded_models 0 _ (by decide)]
  simp only []
  rw [cull_loop_eq camera s.lights s.loaded_flat_models _ _ (Nat.mod_lt _ (by decide))]
  simp [Scene.all_models, loop_counter_append, loop_writes_append, apply_writes_append,
    Nat.add_assoc]

end CullingLemmas

/-! ## Lemmas on bounding spheres -/

section BoundingLemmas

variable {F : Type} [LinearOrderedField F]

theorem INT_MAX_val : INT_MAX = 2147483647 := by norm_num [INT_MAX]

theorem SIZE_MOD_val : SIZE_MOD = 18446744073709551616 := by norm_num [SIZE_MOD]

theorem size_minus_two_eq (s : Nat) (h2 : 2 ≤ s) (_h : s ≤ INT_MAX) :
    size_minus_two s = s - 2 := by
  rw [size_minus_two, if_pos h2]

theorem scan_vertices_stop (vs : List F) (b i : Nat) (g l : Extrema F)
    (h : ¬ i < b) : scan_vertices vs b i g l = some (g, l) := by
  rw [scan_vertices, if_neg h]

theorem scan_vertices_step (vs : List F) (b i : Nat) (g l : Extrema F) (x y z : F)
    (h : i < b) (hx : vs[i]? = some x) (hy : vs[i + 1]? = some y)
    (hz : vs[i + 2]? = some z) (hi : i + 3 ≤ INT_MAX) :
    scan_vertices vs b i g l =
      scan_vertices vs b (i + 3) (g.update x y z) (l.update x y z) := by
  rw [scan_vertices, if_pos h, hx, hy, hz]
  simp only [if_pos hi]

theorem scan_vertices_suffix (n : Nat) :
    ∀ (pre rest : List F) (g l : Extrema F), rest.length = 3 * n →
      3 ≤ pre.length + rest.length → pre.length + rest.length ≤ INT_MAX →
      scan_vertices (pre ++ rest) (size_minus_two (pre ++ rest).length) pre.length g l =
        some ((positions rest).foldl Extrema.add_point g,
              (positions rest).foldl Extrema.add_point l) := by
  induction n with
  | zero =>
    intro pre rest g l hlen h3 hmax
    have hb : size_minus_two (pre ++ rest).length = pre.length + rest.length - 2 := by
      rw [List.length_append]
      exact size_minus_two_eq _ (by omega) hmax
    have hnil : rest = [] := List.length_eq_zero.mp (by simpa using hlen)
    subst hnil
    rw [hb, scan_vertices_stop _ _ _ _ _ (by simp)]
    simp [positions]
  | succ n ih =>
    intro pre rest g l hlen h3 hmax
    have hb : size_minus_two (pre ++ rest).length = pre.length + rest.length - 2 := by
      rw [List.length_append]
      exact size_minus_two_eq _ (by omega) hmax
    match rest, hlen, h3, hmax, hb with
    | x :: y :: z :: rest1, hlen, h3, hmax, hb =>
      have hlen0 : (x :: y :: z :: rest1).length = rest1.length + 3 := by simp
      have hlen1 : rest1.length = 3 * n := by omega
      have hpre : pre ++ x :: y :: z :: rest1 = (pre ++ [x, y, z]) ++ rest1 := by simp
      have hl : (pre ++ [x, y, z]).length = pre.length + 3 := by simp
      have hx : (pre ++ x :: y :: z :: rest1)[pre.length]? = some x := by
        rw [List.getElem?_append_right (Nat.le_refl _)]
        simp
      have hy : (pre ++ x :: y :: z :: rest1)[pre.length + 1]? = some y := by
        rw [List.getElem?_append_right (Nat.le_add_right _ _), Nat.add_sub_cancel_left]
        simp
      have hz : (pre ++ x :: y :: z :: rest1)[pre.length + 2]? = some z := by
        rw [List.getElem?_append_right (Nat.le_add_right _ _), Nat.add_sub_cancel_left]
        simp
      have hstep := scan_vertices_step (pre ++ x :: y :: z :: rest1)
        (size_minus_two (pre ++ x :: y :: z :: rest1).length) pre.length g l x y z
        (by rw [hb]; omega) hx hy hz (by omega)
      rw [hstep, hpre, ← hl, ih (pre ++ [x, y, z]) rest1 _ _ hlen1 (by omega) (by omega)]
      simp [positions, Extrema.add_point]
    | [], hlen, _, _, _ => simp at hlen
    | [_], hlen, _, _, _ => simp at hlen; omega
    | [_, _], hlen, _, _, _ => simp at hlen; omega

theorem scan_vertices_eq (vs : List F) (n : Nat) (g l : Extrema F)
    (hlen : vs.length = 3 * n) (hn : 1 ≤ n) (hmax : vs.length ≤ INT_MAX) :
    scan_vertices vs (size_minus_two vs.length) 0 g l =
      some ((positions vs).foldl Extrema.add_point g, (positions vs).foldl Extrema.add_point l) := by
  have h := scan_vertices_suffix n [] vs g l hlen (by simp; omega) (by simpa using hmax)
  simpa using h

theorem Extrema.within_refl (e : Extrema F) : e.within e := by
  simp [Extrema.within]

theorem Extrema.within_trans {e1 e2 e3 : Extrema F} (h12 : e1.within e2)
    (h23 : e2.within e3) : e1.within e3 := by
  obtain ⟨a1, a2, a3, a4, a5, a6⟩ := h12
  obtain ⟨b1, b2, b3, b4, b5, b6⟩ := h23
  exact ⟨le_trans b1 a1, le_trans a2 b2, le_trans b3 a3, le_trans a4 b4, le_trans b5 a5,
    le_trans a6 b6⟩

theorem Extrema.contains_of_within {e1 e2 : Extrema F} {p : Vec3 F} (h : e1.contains p)
    (h12 : e1.within e2) : e2.contains p := by
  obtain ⟨a1, a2, a3, a4, a5, a6⟩ := h
  obtain ⟨b1, b2, b3, b4, b5, b6⟩ := h12
  exact ⟨le_trans b1 a1, le_trans a2 b2, le_trans b3 a3, le_trans a4 b4, le_trans b5 a5,
    le_trans a6 b6⟩

theorem Extrema.within_add_point (e : Extrema F) (p : Vec3 F) : e.within (e.add_point p) := by
  simp only [Extrema.within, Extrema.add_point, Extrema.update]
  refine ⟨?_, ?_, ?_, ?_, ?_, ?_⟩ <;> split <;> first | exact le_refl _ | (apply le_of_lt; assumption)

theorem Extrema.contains_add_point (e : Extrema F) (p : Vec3 F) : (e.add_point p).contains p := by
  simp only [Extrema.contains, Extrema.add_point, Extrema.update]
  refine ⟨?_, ?_, ?_, ?_, ?_, ?_⟩ <;> split <;>
    first | exact le_refl _ | (apply le_of_not_lt; assumption)

theorem Extrema.within_foldl (ps : List (Vec3 F)) (e : Extrema F) :
    e.within (ps.foldl Extrema.add_point e) := by
  induction ps generalizing e with
  | nil => exact e.within_refl
  | cons p rest ih => exact Extrema.within_trans (e.within_add_point p) (ih _)

theorem Extrema.contains_foldl (ps : List (Vec3 F)) (e : Extrema F) (p : Vec3 F)
    (hp : p ∈ ps) : (ps.foldl Extrema.add_point e).contains p := by
  induction ps generalizing e with
  | nil => cases hp
  | cons q rest ih =>
    rcases List.mem_cons.mp hp with h | h
    · subst h
      exact Extrema.contains_of_within (e.contains_add_point p) (Extrema.within_foldl rest _)
    · exact ih _ h

theorem Extrema.sphere_encloses (sqrt : F → F) (hsqrt : ∀ x : F, 0 ≤ x → sqrt x * sqrt x = x)
    (e : Extrema F) (p : Vec3 F) (h : e.contains p) :
    dist_sq p e.center ≤ e.radius sqrt * e.radius sqrt := by
  obtain ⟨a1, a2, a3, a4, a5, a6⟩ := h
  have hnn : 0 ≤ Vec3.dot e.r_vector e.r_vector := by
    exact add_nonneg (add_nonneg (mul_self_nonneg _) (mul_self_nonneg _))
      (mul_self_nonneg _)
  rw [Extrema.radius, length, hsqrt _ hnn]
  simp only [dist_sq, Vec3.dot, Vec3.sub, Extrema.center, Extrema.r_vector, Vec3.add,
    Vec3.smul, Extrema.min_corner, Extrema.max_corner]
  nlinarith [mul_nonneg (sub_nonneg.mpr a1) (sub_nonneg.mpr a2),
    mul_nonneg (sub_nonneg.mpr a3) (sub_nonneg.mpr a4),
    mul_nonneg (sub_nonneg.mpr a5) (sub_nonneg.mpr a6)]

theorem scan_meshes_spec (sqrt : F → F) (ms : List (Mesh F)) :
    ∀ g : Extrema F, (∀ me ∈ ms, me.has_vertices) →
      ∃ ms1 g1, scan_meshes sqrt ms g = some (ms1, g1) ∧ g.within g1 ∧
        (∀ me ∈ ms, ∀ p ∈ positions me.vertices, g1.contains p) ∧
        List.Forall₂ (Mesh.sphere_from_box sqrt) ms ms1 := by
  induction ms with
  | nil =>
    intro g _
    exact ⟨[], g, rfl, g.within_refl, by simp, List.Forall₂.nil⟩
  | cons me rest ih =>
    intro g hwf
    obtain ⟨n, hn, hlen, hmax⟩ := hwf me (List.mem_cons_self _ _)
    have hlen_pos : 0 < me.vertices.length := by omega
    have h0 : me.vertices[0]? = some (me.vertices[0]) := List.getElem?_eq_getElem hlen_pos
    have hscan := scan_vertices_eq me.vertices n g (Extrema.init (me.vertices[0])) hlen hn
      (by omega)
    obtain ⟨rest1, g2, hrest, hw, hall, hf2⟩ :=
      ih ((positions me.vertices).foldl Extrema.add_point g)
        (fun me1 h1 => hwf me1 (List.mem_cons_of_mem _ h1))
    let loc := (positions me.vertices).foldl Extrema.add_point (Extrema.init (me.vertices[0]))
    refine ⟨{ me with bounding_sphere_radius := loc.radius sqrt,
                      bounding_sphere_center := loc.center } :: rest1, g2, ?_, ?_, ?_, ?_⟩
    · simp only [scan_meshes, h0, hscan, hrest, loc]
    · exact Extrema.within_trans (Extrema.within_foldl _ g) hw
    · intro me1 hme1 p hp
      rcases List.mem_cons.mp hme1 with h | h
      · subst h
        exact Extrema.contains_of_within (Extrema.contains_foldl _ g p hp) hw
      · exact hall me1 h p hp
    · refine List.Forall₂.cons ⟨rfl, rfl, loc, rfl, rfl, ?_⟩ hf2
      intro p hp
      exact Extrema.contains_foldl _ _ p hp

theorem generate_bounding_sphere_spec (sqrt : F → F) (m : Model F) (hne : m.meshes ≠ [])
    (hwf : ∀ me ∈ m.meshes, me.has_vertices) :
    ∃ (m1 : Model F) (glob : Extrema F), m.generate_bounding_sphere sqrt = some m1 ∧
      m1.bounding_sphere_center = glob.center ∧
      m1.bounding_sphere_radius = glob.radius sqrt ∧
      (∀ me ∈ m.meshes, ∀ p ∈ positions me.vertices, glob.contains p) ∧
      List.Forall₂ (Mesh.sphere_from_box sqrt) m.meshes m1.meshes := by
  match hm : m.meshes, hne with
  | me0 :: rest, _ =>
    obtain ⟨n, hn, hlen, hmax⟩ := hwf me0 (by rw [hm]; exact List.mem_cons_self _ _)
    have hlen_pos : 0 < me0.vertices.length := by omega
    have h0 : me0.vertices[0]? = some (me0.vertices[0]) := List.getElem?_eq_getElem hlen_pos
    obtain ⟨ms1, g1, hscan, _, hall, hf2⟩ :=
      scan_meshes_spec sqrt m.meshes (Extrema.init (me0.vertices[0])) hwf
    rw [hm] at hscan hall hf2
    refine ⟨{ m with meshes := ms1, bounding_sphere_radius := g1.radius sqrt,
                     bounding_sphere_center := g1.center }, g1, ?_, rfl, rfl, hall, hf2⟩
    simp only [Model.generate_bounding_sphere, hm, List.getElem?_cons_zero, h0, hscan]

end BoundingLemmas

/-! ## Evaluation of the concrete scenes -/

theorem get_light_active_eq {F : Type} [LinearOrderedField F] (lights : Nat → Light F)
    (m : Model F) :
    m.get_light_active lights = first_light_active lights m.attached_lights := by
  obtain ⟨_, _, _, _, _, _, n, ls, hc, _, _, _, _⟩ := m
  subst hc
  cases ls <;> simp [Model.get_light_active, first_light_active]

theorem translate_mulVec (p q : Vec3 ℚ) :
    vec3 ((translate (mat4 1) p).mulVec (vec4 q 1)) = ⟨q.x + p.x, q.y + p.y, q.z + p.z⟩ := by
  simp [translate, mat4, vec3, vec4, Mat4.mulVec, Vec4.add, Vec4.smul]

theorem model_with_flags_center (p : Vec3 ℚ) (ls : List (light_container ℚ)) (a b : Bool) :
    (model_with_flags p ls a b).get_center_point_world = p := by
  simp [model_with_flags, Model.get_center_point_world, translate_mulVec]

theorem model_with_flags_drawable (camera : Camera ℚ) (lights : Nat → Light ℚ) (p : Vec3 ℚ)
    (ls : List (light_container ℚ)) (a b : Bool) :
    (model_with_flags p ls a b).drawable camera lights =
      (first_light_active lights ls && camera.sphere_in_frustum p 2) := by
  simp [Model.drawable, get_light_active_eq, model_with_flags_center]
  simp [model_with_flags]

theorem model_with_flags_mesh (camera : Camera ℚ) (p : Vec3 ℚ) (b : Bool) :
    Mesh.in_frustum camera (translate (mat4 1) p) 1 { small_mesh with draw_me := b } =
      camera.sphere_in_frustum p 1 := by
  simp [Mesh.in_frustum, Mesh.get_center_point_world, translate_mulVec, small_mesh]

theorem model_with_flags_culled (camera : Camera ℚ) (lights : Nat → Light ℚ) (p : Vec3 ℚ)
    (ls : List (light_container ℚ)) (a b : Bool) :
    (model_with_flags p ls a b).culled camera lights =
      if (model_with_flags p ls a b).drawable camera lights then
        model_with_flags p ls true (camera.sphere_in_frustum p 1)
      else model_with_flags p ls false b := by
  unfold Model.culled
  split
  · simp [model_with_flags, Mesh.flagged, model_with_flags_mesh]
  · simp [model_with_flags]

theorem model_with_flags_drawn_meshes (camera : Camera ℚ) (lights : Nat → Light ℚ)
    (p : Vec3 ℚ) (ls : List (light_container ℚ)) (a b : Bool) :
    (model_with_flags p ls a b).drawn_meshes camera lights =
      if (model_with_flags p ls a b).drawable camera lights then
        (if camera.sphere_in_frustum p 1 then 1 else 0)
      else 0 := by
  unfold Model.drawn_meshes
  split
  · simp only [model_with_flags, List.countP_cons, List.countP_nil, model_with_flags_mesh]
    split <;> simp [UINT_MOD]
  · rfl

theorem model_with_flags_descriptor (camera : Camera ℚ) (p : Vec3 ℚ)
    (ls : List (light_container ℚ)) (a b : Bool) :
    (model_with_flags p ls a b).descriptor camera =
      ⟨vec3 (camera.get_view_matrix.mulVec (vec4 p 1)), 2⟩ := by
  simp [Model.descriptor, model_with_flags_center]
  simp [model_with_flags]
  norm_num

theorem cam_front_sees (x y : ℚ) :
    cam_front.sphere_in_frustum ⟨x, y, -5⟩ 2 = true ∧
      cam_front.sphere_in_frustum ⟨x, y, -5⟩ 1 = true := by
  simp [cam_front]
  norm_num

theorem cam_back_misses (x y : ℚ) :
    cam_back.sphere_in_frustum ⟨x, y, -5⟩ 2 = false ∧
      cam_back.sphere_in_frustum ⟨x, y, -5⟩ 1 = false := by
  simp [cam_back]
  norm_num

theorem cam_short_sees (x y : ℚ) :
    cam_short.sphere_in_frustum ⟨x, y, -5⟩ 2 = true ∧
      cam_short.sphere_in_frustum ⟨x, y, -5⟩ 1 = false := by
  simp [cam_short]
  norm_num

theorem scene_one_front :
    (cull_models cam_front scene_one).2.loaded_models =
      [model_with_flags ⟨0, 0, -5⟩ [] true true] := by
  simp [cull_models_eq, scene_one, model_at, model_with_flags_culled,
    model_with_flags_drawable, cam_front_sees, first_light_active]

theorem scene_one_turned_models :
    scene_one_turned.all_models = [model_with_flags ⟨0, 0, -5⟩ [] false true] := by
  have h := scene_one_front
  simp only [scene_one_turned, cull_models_eq, Scene.all_models] at h ⊢
  rw [h]
  simp [scene_one, model_with_flags_culled, model_with_flags_drawable, cam_back_misses,
    first_light_active]

/-- Claim C1, refuted as stated.  From the scene `scene_one`, in which every flag
is cleared, a pass with `cam_front` followed by a pass with `cam_back` reaches a
state in which the mesh of the only model is flagged visible while the model itself
is not: the second pass finds the model not drawable and leaves its mesh flag alone. -/
theorem mesh_flag_invariant_counterexample :
    (∀ m ∈ scene_one.all_models, m.draw_me = false ∧ ∀ me ∈ m.meshes, me.draw_me = false) ∧
      Reachable scene_one scene_one_turned ∧ ¬ scene_one_turned.flags_consistent := by
  refine ⟨?_, ?_, ?_⟩
  · simp [scene_one, Scene.all_models, model_at, model_with_flags, small_mesh]
  · exact Reachable.next cam_back scene_one.lights
      (Reachable.first cam_front scene_one.lights)
  · intro h
    have hm := h (model_with_flags ⟨0, 0, -5⟩ [] false true)
      (by rw [scene_one_turned_models]; exact List.mem_singleton.mpr rfl)
      { small_mesh with draw_me := true } (by simp [model_with_flags]) rfl
    simp [model_with_flags] at hm

/-! ## Claims on the flags set by culling -/

section FlagClaims

variable {F : Type} [LinearOrderedField F]

theorem culled_draw_me (camera : Camera F) (lights : Nat → Light F) (m : Model F) :
    (m.culled camera lights).draw_me = m.drawable camera lights := by
  unfold Model.culled
  split <;> simp_all

theorem culled_meshes (camera : Camera F) (lights : Nat → Light F) (m : Model F) :
    (m.culled camera lights).meshes =
      if m.drawable camera lights then m.meshes.map (Mesh.flagged camera m.m2w_matrix m.scale)
      else m.meshes := by
  unfold Model.culled
  split <;> simp_all

theorem forall₂_map_self {α β : Type} (R : α → β → Prop) (f : α → β) (l : List α)
    (h : ∀ a ∈ l, R a (f a)) : List.Forall₂ R l (l.map f) := by
  induction l with
  | nil => exact List.Forall₂.nil
  | cons a rest ih =>
    exact List.Forall₂.cons (h a (List.mem_cons_self _ _))
      (ih (fun b hb => h b (List.mem_cons_of_mem _ hb)))

theorem forall₂_self {α : Type} (R : α → α → Prop) (l : List α) (h : ∀ a ∈ l, R a a) :
    List.Forall₂ R l l := by
  induction l with
  | nil => exact List.Forall₂.nil
  | cons a rest ih =>
    exact List.Forall₂.cons (h a (List.mem_cons_self _ _))
      (ih (fun b hb => h b (List.mem_cons_of_mem _ hb)))

theorem cull_models_all_models (camera : Camera F) (s : Scene F) :
    (cull_models camera s).2.all_models = s.all_models.map (Model.culled camera s.lights) := by
  simp [cull_models_eq, Scene.all_models]

/-- Claim C1, amended.  After a call of `cull_models` from any state, hence in every
reachable state, for every model of either registry and every mesh of it: if the mesh
flag is set then the model flag is set or the mesh flag was already set before the
call (`cull_me` leaves the mesh flags of a model it finds not drawable untouched).  In
particular the invariant holds after a call made from a state in which every mesh
flag is cleared. -/
theorem cull_models_mesh_flag_origin (camera : Camera F) (s : Scene F) :
    List.Forall₂
        (fun m m1 => List.Forall₂
          (fun me me1 => me1.draw_me = true → m1.draw_me = true ∨ me.draw_me = true)
          m.meshes m1.meshes)
        s.all_models (cull_models camera s).2.all_models ∧
      ((∀ m ∈ s.all_models, ∀ me ∈ m.meshes, me.draw_me = false) →
        (cull_models camera s).2.flags_consistent) := by
  rw [cull_models_all_models]
  refine ⟨forall₂_map_self _ _ _ ?_, ?_⟩
  · intro m _
    rw [culled_meshes, culled_draw_me]
    by_cases hd : m.drawable camera s.lights = true
    · rw [if_pos hd]
      exact forall₂_map_self _ _ _ (fun me _ _ => Or.inl hd)
    · rw [if_neg hd]
      exact forall₂_self _ _ (fun me _ h => Or.inr h)
  · intro hclear m1 hm1 me1 hme1 hflag
    rw [cull_models_all_models] at hm1
    obtain ⟨m, hm, rfl⟩ := List.mem_map.mp hm1
    rw [culled_draw_me]
    rw [culled_meshes] at hme1
    by_cases hd : m.drawable camera s.lights = true
    · exact hd
    · rw [if_neg hd] at hme1
      rw [hclear m hm me1 hme1] at hflag
      cases hflag

end FlagClaims

/-- Witness for the amended claim C1: the scene `scene_one`, whose flags are all
cleared, satisfies the invariant after a pass with `cam_front`. -/
theorem cull_models_mesh_flag_origin_witness :
    (∀ m ∈ scene_one.all_models, ∀ me ∈ m.meshes, me.draw_me = false) ∧
      (cull_models cam_front scene_one).2.flags_consistent :=
  have h : ∀ m ∈ scene_one.all_models, ∀ me ∈ m.meshes, me.draw_me = false := by
    simp [scene_one, Scene.all_models, model_at, model_with_flags, small_mesh]
  ⟨h, (cull_models_mesh_flag_origin cam_front scene_one).2 h⟩

theorem model_seen_eq : model_seen = model_with_flags ⟨0, 0, -5⟩ [] true true := by
  simp [model_seen, cull_me_eq, model_at, model_with_flags_culled, model_with_flags_drawable,
    cam_front_sees, first_light_active]

/-- Claim C2, refuted as stated.  The model `model_seen` carries the flags left by a
call of `cull_me` with `cam_front`.  A call with `cam_back` finds it not drawable (its
sphere fails the frustum test) and yet its mesh is still flagged visible afterwards. -/
theorem cull_me_clears_meshes_counterexample :
    cam_back.sphere_in_frustum model_seen.get_center_point_world
        (model_seen.bounding_sphere_radius * model_seen.scale) = false ∧
      (model_seen.cull_me cam_back lights_on statics_zero).2.1.draw_me = false ∧
      ∃ me ∈ (model_seen.cull_me cam_back lights_on statics_zero).2.1.meshes,
        me.draw_me = true := by
  rw [model_seen_eq]
  refine ⟨?_, ?_, ?_⟩
  · simp only [model_with_flags_center]
    simp [model_with_flags, cam_back_misses]
  · simp [cull_me_eq, culled_draw_me, model_with_flags_drawable, cam_back_misses]
  · simp [cull_me_eq, model_with_flags_culled, model_with_flags_drawable, cam_back_misses]
    simp [model_with_flags]

/-- Claim C2, amended.  If `cull_me` finds the model not drawable (its light is
inactive or its bounding sphere fails the frustum test), then the returned count is
`0`, the model flag is cleared, the meshes are left exactly as they were (their flags
are not cleared), no per-mesh frustum test is evaluated (the only test logged is the
one of the model's own sphere, and only when the light is active), and neither
`models_drawn` nor `gpu_spheres` is touched. -/
theorem cull_me_not_drawable {F : Type} [LinearOrderedField F] (camera : Camera F)
    (lights : Nat → Light F) (m : Model F) (st : Statics F)
    (h : m.get_light_active lights = false ∨
      camera.sphere_in_frustum m.get_center_point_world
        (m.bounding_sphere_radius * m.scale) = false) :
    (m.cull_me camera lights st).1 = 0 ∧
      (m.cull_me camera lights st).2.1.draw_me = false ∧
      (m.cull_me camera lights st).2.1.meshes = m.meshes ∧
      (m.cull_me camera lights st).2.2.frustum_log =
        st.frustum_log ++
          (if m.get_light_active lights then
            [(m.get_center_point_world, m.bounding_sphere_radius * m.scale)]
           else []) ∧
      (m.cull_me camera lights st).2.2.models_drawn = st.models_drawn ∧
      (m.cull_me camera lights st).2.2.gpu_spheres = st.gpu_spheres ∧
      (m.cull_me camera lights st).2.2.write_log = st.write_log := by
  have hd : m.drawable camera lights = false := by
    unfold Model.drawable
    rcases h with h | h <;> simp [h]
  simp [cull_me_eq, Model.drawn_meshes, Model.culled, Model.tested, hd]

/-- Witness for the amended claim C2: the model `model_seen` under `cam_back`. -/
theorem cull_me_not_drawable_witness :
    (model_seen.cull_me cam_back lights_on statics_zero).1 = 0 ∧
      (model_seen.cull_me cam_back lights_on statics_zero).2.1.draw_me = false ∧
      (model_seen.cull_me cam_back lights_on statics_zero).2.1.meshes = model_seen.meshes ∧
      (model_seen.cull_me cam_back lights_on statics_zero).2.2.frustum_log =
        statics_zero.frustum_log ++
          (if model_seen.get_light_active lights_on then
            [(model_seen.get_center_point_world,
              model_seen.bounding_sphere_radius * model_seen.scale)]
           else []) ∧
      (model_seen.cull_me cam_back lights_on statics_zero).2.2.models_drawn =
        statics_zero.models_drawn ∧
      (model_seen.cull_me cam_back lights_on statics_zero).2.2.gpu_spheres =
        statics_zero.gpu_spheres ∧
      (model_seen.cull_me cam_back lights_on statics_zero).2.2.write_log =
        statics_zero.write_log :=
  cull_me_not_drawable cam_back lights_on model_seen statics_zero
    (Or.inr (by
      rw [model_seen_eq]
      simp only [model_with_flags_center]
      simp [model_with_flags, cam_back_misses]))

/-! ## Claims on the drawability rule -/

/-- Claim C5, refuted as stated.  A model without any attached light whose sphere
passes the frustum test is flagged visible; and a model whose first attached light is
switched off is not flagged visible although its second attached light is active and
its sphere passes the frustum test. -/
theorem light_rule_counterexample :
    ((model_at ⟨0, 0, -5⟩ []).cull_me cam_front lights_on statics_zero).2.1.draw_me = true ∧
      (model_at ⟨0, 0, -5⟩ []).attached_lights = [] ∧
      (model_two_lights.cull_me cam_front lights_first_off statics_zero).2.1.draw_me = false ∧
      (∃ c ∈ model_two_lights.attached_lights, (lights_first_off c.light).active = true) ∧
      cam_front.sphere_in_frustum
        (vec3 (model_two_lights.m2w_matrix.mulVec
          (vec4 model_two_lights.bounding_sphere_center 1)))
        (model_two_lights.bounding_sphere_radius * model_two_lights.scale) = true := by
  refine ⟨?_, ?_, ?_, ?_, ?_⟩
  · simp [cull_me_eq, culled_draw_me, model_at, model_with_flags_drawable, cam_front_sees,
      first_light_active]
  · simp [model_at, model_with_flags]
  · simp [cull_me_eq, culled_draw_me, model_two_lights, model_at, model_with_flags_drawable,
      first_light_active, lights_first_off]
  · simp [model_two_lights, model_at, model_with_flags, lights_first_off]
  · have h := model_with_flags_center ⟨0, 0, -5⟩ [⟨0, ⟨0, 1, 0⟩⟩, ⟨1, ⟨0, 2, 0⟩⟩] false false
    unfold Model.get_center_point_world at h
    simp only [model_two_lights, model_at, h]
    simp [model_with_flags, cam_front_sees]

/-- Claim C5, amended.  `cull_me` sets the model's `draw_me` flag to true if and only
if `get_light_active()` holds, that is the model has no attached light or its first
attached light is active, and `camera.sphere_in_frustum(m2w_matrix *
bounding_sphere_center, bounding_sphere_radius * scale)` holds. -/
theorem cull_me_draw_me_iff {F : Type} [LinearOrderedField F] (camera : Camera F)
    (lights : Nat → Light F) (m : Model F) (st : Statics F) :
    (m.cull_me camera lights st).2.1.draw_me = true ↔
      ((∀ c, m.attached_lights.head? = some c → (lights c.light).active = true) ∧
        camera.sphere_in_frustum
          (vec3 (m.m2w_matrix.mulVec (vec4 m.bounding_sphere_center 1)))
          (m.bounding_sphere_radius * m.scale) = true) := by
  rw [cull_me_eq]
  simp only [culled_draw_me, Model.drawable, get_light_active_eq, Bool.and_eq_true,
    Model.get_center_point_world]
  cases m.attached_lights <;> simp [first_light_active]

/-! ## Claims on the written count -/

section CountClaims

variable {F : Type} [LinearOrderedField F]

theorem loop_writes_length (camera : Camera F) (lights : Nat → Light F)
    (ms : List (Model F)) :
    ∀ k, (loop_writes camera lights ms k).length = ms.countP (Model.drawable camera lights) := by
  induction ms with
  | nil => intro k; simp [loop_writes]
  | cons m rest ih =>
    intro k
    simp only [loop_writes, List.length_append, ih, List.countP_cons]
    by_cases hd : m.drawable camera lights = true
    · simp [hd]; omega
    · simp [hd]

theorem countP_draw_me_culled (camera : Camera F) (lights : Nat → Light F)
    (ms : List (Model F)) :
    (ms.map (Model.culled camera lights)).countP (fun m => m.draw_me) =
      ms.countP (Model.drawable camera lights) := by
  induction ms with
  | nil => rfl
  | cons m rest ih => simp [List.countP_cons, ih, culled_draw_me]

theorem loop_counter_no_mesh (camera : Camera F) (lights : Nat → Light F)
    (ms : List (Model F)) (hz : ∀ m ∈ ms, m.drawn_meshes camera lights = 0) :
    ∀ k, k < UINT_MOD →
      loop_counter camera lights ms k =
        (k + ms.countP (Model.drawable camera lights)) % UINT_MOD := by
  induction ms with
  | nil => intro k hk; simp [loop_counter, Nat.mod_eq_of_lt hk]
  | cons m rest ih =>
    intro k hk
    have hz0 := hz m (List.mem_cons_self _ _)
    have ih1 := ih (fun m1 h1 => hz m1 (List.mem_cons_of_mem _ h1))
    simp only [loop_counter, Model.counter_after, hz0, ne_eq, not_true_eq_false, if_false,
      List.countP_cons]
    by_cases hd : m.drawable camera lights = true
    · simp only [hd, if_true]
      rw [ih1 _ (Nat.mod_lt _ (by decide)), Nat.mod_add_mod]
      congr 1
      omega
    · simp only [hd, Bool.false_eq_true, if_false]
      rw [ih1 _ hk]
      simp

end CountClaims

/-! ## The written count on concrete scenes -/

theorem mat4_one_mulVec (p : Vec3 ℚ) : vec3 ((mat4 (1 : ℚ)).mulVec (vec4 p 1)) = p := by
  simp [mat4, vec3, vec4, Mat4.mulVec]

theorem loop_writes_indices {F : Type} [LinearOrderedField F] (camera : Camera F)
    (lights : Nat → Light F) (ms : List (Model F))
    (hd : ∀ m ∈ ms, m.drawable camera lights = true)
    (hz : ∀ m ∈ ms, m.drawn_meshes camera lights = 0) :
    ∀ k, k + ms.length < UINT_MOD →
      (loop_writes camera lights ms k).map Prod.fst = List.range' k ms.length := by
  induction ms with
  | nil => intro k _; rfl
  | cons m rest ih =>
    intro k hk
    have hd0 := hd m (List.mem_cons_self _ _)
    have hz0 := hz m (List.mem_cons_self _ _)
    simp only [List.length_cons] at hk
    have hc : m.counter_after camera lights k = k + 1 := by
      simp only [Model.counter_after, hd0, hz0, if_true, ne_eq, not_true_eq_false, if_false]
      exact Nat.mod_eq_of_lt (by omega)
    simp only [loop_writes, hd0, if_true, hc, List.map_append, List.map_cons, List.map_nil,
      List.length_cons]
    rw [ih (fun m1 h1 => hd m1 (List.mem_cons_of_mem _ h1))
      (fun m1 h1 => hz m1 (List.mem_cons_of_mem _ h1)) (k + 1) (by omega)]
    rfl

theorem model_in_row_short (i : Nat) :
    (model_in_row i).drawable cam_short lights_on = true ∧
      (model_in_row i).drawn_meshes cam_short lights_on = 0 := by
  simp [model_in_row, model_at, model_with_flags_drawn_meshes, model_with_flags_drawable,
    cam_short_sees, first_light_active]

theorem scene_rows_models (a b : Nat) :
    ∀ m ∈ (scene_rows a b).all_models, ∃ i : Nat, m = model_in_row i := by
  intro m hm
  simp only [scene_rows, Scene.all_models, List.mem_append, List.mem_map] at hm
  rcases hm with ⟨i, _, rfl⟩ | ⟨i, _, rfl⟩ <;> exact ⟨i, rfl⟩

theorem scene_rows_length (a b : Nat) : (scene_rows a b).all_models.length = a + b := by
  simp [scene_rows, Scene.all_models]

/-- Claim C3, evaluated at its failing input.  `cull_me` writes
`gpu_spheres[models_drawn]` without comparing `models_drawn` with `_MAX_MODELS_`.
For every capacity `MAX_MODELS` and every scene `scene_rows a b` with more than
`MAX_MODELS` (and fewer than `2 ^ 32`) models, all of them in the frustum of
`cam_short` and none with a visible mesh, so that each model advances the counter
once: the pass flags all `a + b` models, ends with `models_drawn = a + b`, which
exceeds the capacity, and writes at the indices `0` to `a + b - 1`, among them the
index `MAX_MODELS`, which lies beyond the last element of the array. -/
theorem gpu_spheres_overrun (MAX_MODELS a b : Nat) (hcap : MAX_MODELS < a + b)
    (hn : a + b < UINT_MOD) :
    (cull_models cam_short (scene_rows a b)).2.all_models.countP (fun m => m.draw_me) =
        a + b ∧
      (cull_models cam_short (scene_rows a b)).2.models_drawn = a + b ∧
      (cull_models cam_short (scene_rows a b)).2.write_log.map Prod.fst =
        List.range (a + b) ∧
      ¬ (cull_models cam_short (scene_rows a b)).2.models_drawn ≤ MAX_MODELS ∧
      ∃ w ∈ (cull_models cam_short (scene_rows a b)).2.write_log, ¬ w.1 < MAX_MODELS := by
  have hd : ∀ m ∈ (scene_rows a b).all_models, m.drawable cam_short lights_on = true := by
    intro m hm
    obtain ⟨i, rfl⟩ := scene_rows_models a b m hm
    exact (model_in_row_short i).1
  have hz : ∀ m ∈ (scene_rows a b).all_models, m.drawn_meshes cam_short lights_on = 0 := by
    intro m hm
    obtain ⟨i, rfl⟩ := scene_rows_models a b m hm
    exact (model_in_row_short i).2
  have hcount : (scene_rows a b).all_models.countP (Model.drawable cam_short lights_on) =
      a + b := by
    rw [List.countP_eq_length.mpr (fun m hm => hd m hm), scene_rows_length]
  have h1 : (cull_models cam_short (scene_rows a b)).2.all_models.countP
      (fun m => m.draw_me) = a + b := by
    rw [cull_models_all_models, countP_draw_me_culled]
    exact hcount
  have h2 : (cull_models cam_short (scene_rows a b)).2.models_drawn = a + b := by
    rw [cull_models_eq]
    have h := loop_counter_no_mesh cam_short lights_on (scene_rows a b).all_models hz 0
      (by decide)
    rw [hcount, Nat.zero_add, Nat.mod_eq_of_lt hn] at h
    exact h
  have h3 : (cull_models cam_short (scene_rows a b)).2.write_log.map Prod.fst =
      List.range (a + b) := by
    rw [cull_models_eq]
    have h := loop_writes_indices cam_short lights_on (scene_rows a b).all_models hd hz 0
      (by rw [scene_rows_length]; omega)
    rw [scene_rows_length] at h
    simpa [scene_rows, statics_zero, List.range_eq_range'] using h
  refine ⟨h1, h2, h3, by rw [h2]; omega, ?_⟩
  have hmem : MAX_MODELS ∈
      (cull_models cam_short (scene_rows a b)).2.write_log.map Prod.fst := by
    rw [h3]
    exact List.mem_range.mpr hcap
  obtain ⟨w, hw, he⟩ := List.mem_map.mp hmem
  exact ⟨w, hw, by rw [he]; exact Nat.lt_irrefl _⟩

/-- Claim C3 at the scenario of the specification: five visible models, three in the
normal and two in the flat registry, and a capacity of `3`.  The count is `5`, not
`3`, and an entry at an index of `3` or more is written. -/
theorem gpu_spheres_overrun_witness :
    3 < 3 + 2 ∧ 3 + 2 < UINT_MOD ∧
      (cull_models cam_short (scene_rows 3 2)).2.all_models.countP (fun m => m.draw_me) =
        3 + 2 ∧
      (cull_models cam_short (scene_rows 3 2)).2.models_drawn = 3 + 2 ∧
      (cull_models cam_short (scene_rows 3 2)).2.write_log.map Prod.fst =
        List.range (3 + 2) ∧
      ¬ (cull_models cam_short (scene_rows 3 2)).2.models_drawn ≤ 3 ∧
      ∃ w ∈ (cull_models cam_short (scene_rows 3 2)).2.write_log, ¬ w.1 < 3 :=
  have hn : 3 + 2 < UINT_MOD := by rw [UINT_MOD]; decide
  ⟨by decide, hn, gpu_spheres_overrun 3 3 2 (by decide) hn⟩

/-- Claim C4, evaluated at its failing input.  Two drawable models, each with a
visible mesh.  The pass writes `gpu_spheres[0]` and `gpu_spheres[2]` only, which is
within the array for every capacity of `3` or more, and flags two models; it ends
with `models_drawn = 4`, which differs from the minimum of the capacity and the
number of flagged models whatever the capacity is.  Every model with a visible mesh
advances the counter twice: once in `cull_me`, once more in the loop of
`cull_models`. -/
theorem written_count_doubled :
    (cull_models cam_front scene_two).2.all_models.countP (fun m => m.draw_me) = 2 ∧
      (cull_models cam_front scene_two).2.models_drawn = 4 ∧
      (cull_models cam_front scene_two).2.write_log.map Prod.fst = [0, 2] ∧
      (∀ MAX_MODELS, 3 ≤ MAX_MODELS →
        ∀ w ∈ (cull_models cam_front scene_two).2.write_log, w.1 < MAX_MODELS) ∧
      ∀ MAX_MODELS, (cull_models cam_front scene_two).2.models_drawn ≠
        min MAX_MODELS
          ((cull_models cam_front scene_two).2.all_models.countP (fun m => m.draw_me)) := by
  have h1 : (cull_models cam_front scene_two).2.all_models.countP (fun m => m.draw_me) = 2 := by
    simp [cull_models_eq, scene_two, statics_zero, Scene.all_models, model_at,
      model_with_flags_culled, model_with_flags_drawable, cam_front_sees, first_light_active]
    simp [model_with_flags]
  have h2 : (cull_models cam_front scene_two).2.models_drawn = 4 := by
    simp [cull_models_eq, scene_two, statics_zero, Scene.all_models, loop_counter,
      Model.counter_after, model_at, model_with_flags_drawable,
      model_with_flags_drawn_meshes, cam_front_sees, first_light_active, UINT_MOD]
  have h3 : (cull_models cam_front scene_two).2.write_log.map Prod.fst = [0, 2] := by
    simp [cull_models_eq, scene_two, statics_zero, Scene.all_models, loop_counter,
      loop_writes, Model.counter_after, model_at, model_with_flags_drawable,
      model_with_flags_drawn_meshes, cam_front_sees, first_light_active, UINT_MOD]
  refine ⟨h1, h2, h3, ?_, ?_⟩
  · intro MAX_MODELS hcap w hw
    have hmem : w.1 ∈ (cull_models cam_front scene_two).2.write_log.map Prod.fst :=
      List.mem_map_of_mem Prod.fst hw
    rw [h3] at hmem
    simp only [List.mem_cons, List.mem_singleton, List.not_mem_nil, or_false] at hmem
    omega
  · intro MAX_MODELS
    rw [h1, h2]
    omega

/-- Claim C6, evaluated at its failing input.  Two drawable models, each with a
visible mesh: the pass ends with `models_drawn = 4`, but only the entries `0` and `2`
of `gpu_spheres` are written.  Entry `1` is not the descriptor of the second drawable
model, and the entries `1` and `3` still hold the values they had before the pass. -/
theorem gpu_spheres_gaps :
    (cull_models cam_front scene_two).2.models_drawn = 4 ∧
      (cull_models cam_front scene_two).2.write_log =
        [(0, ⟨⟨0, 0, -5⟩, 2⟩), (2, ⟨⟨1, 0, -5⟩, 2⟩)] ∧
      (cull_models cam_front scene_two).2.gpu_spheres 0 = ⟨⟨0, 0, -5⟩, 2⟩ ∧
      (cull_models cam_front scene_two).2.gpu_spheres 1 = scene_two.gpu_spheres 1 ∧
      (cull_models cam_front scene_two).2.gpu_spheres 2 = ⟨⟨1, 0, -5⟩, 2⟩ ∧
      (cull_models cam_front scene_two).2.gpu_spheres 3 = scene_two.gpu_spheres 3 := by
  refine ⟨?_, ?_, ?_, ?_, ?_, ?_⟩ <;>
    simp [cull_models_eq, scene_two, statics_zero, Scene.all_models, loop_counter,
      loop_writes, apply_writes, Model.counter_after, model_at, model_with_flags_drawable,
      model_with_flags_drawn_meshes, model_with_flags_descriptor, cam_front_sees,
      first_light_active, UINT_MOD] <;>
    simp [cam_front, mat4_one_mulVec]

/-! ## Determinism and idempotence of the pass -/

section Idempotence

variable {F : Type} [LinearOrderedField F]

theorem in_frustum_flagged (camera camera1 : Camera F) (m2w : Mat4 F) (scale : F)
    (me : Mesh F) :
    (me.flagged camera1 m2w scale).in_frustum camera m2w scale =
      me.in_frustum camera m2w scale := rfl

theorem flagged_flagged (camera : Camera F) (m2w : Mat4 F) (scale : F) (me : Mesh F) :
    (me.flagged camera m2w scale).flagged camera m2w scale = me.flagged camera m2w scale :=
  rfl

theorem drawable_culled (camera : Camera F) (lights : Nat → Light F) (m : Model F) :
    (m.culled camera lights).drawable camera lights = m.drawable camera lights := by
  unfold Model.culled
  split <;> rfl

theorem descriptor_culled (camera : Camera F) (lights : Nat → Light F) (m : Model F) :
    (m.culled camera lights).descriptor camera = m.descriptor camera := by
  unfold Model.culled
  split <;> rfl

theorem drawn_meshes_culled (camera : Camera F) (lights : Nat → Light F) (m : Model F) :
    (m.culled camera lights).drawn_meshes camera lights = m.drawn_meshes camera lights := by
  unfold Model.drawn_meshes
  rw [drawable_culled]
  by_cases hd : m.drawable camera lights = true
  · simp only [hd, if_true]
    unfold Model.culled
    simp only [hd, if_true, List.countP_map]
    rfl
  · simp only [hd, if_false]
    rfl

theorem culled_culled (camera : Camera F) (lights : Nat → Light F) (m : Model F) :
    (m.culled camera lights).culled camera lights = m.culled camera lights := by
  by_cases hd : m.drawable camera lights = true
  · have h2 := drawable_culled camera lights m
    rw [hd] at h2
    rw [Model.culled, if_pos h2]
    simp only [Model.culled, hd, if_true, List.map_map]
    congr 1
  · have h2 := drawable_culled camera lights m
    rw [Model.culled, if_neg (by rw [h2]; exact hd)]
    simp only [Model.culled, hd, if_false]
    rfl

theorem culled_comp_culled (camera : Camera F) (lights : Nat → Light F) :
    Model.culled camera lights ∘ Model.culled camera lights = Model.culled camera lights :=
  funext (culled_culled camera lights)

theorem drawn_meshes_comp_culled (camera : Camera F) (lights : Nat → Light F) :
    Model.drawn_meshes camera lights ∘ Model.culled camera lights =
      Model.drawn_meshes camera lights :=
  funext (drawn_meshes_culled camera lights)

theorem counter_after_culled (camera : Camera F) (lights : Nat → Light F) (m : Model F)
    (k : Nat) :
    (m.culled camera lights).counter_after camera lights k =
      m.counter_after camera lights k := by
  simp only [Model.counter_after, drawable_culled, drawn_meshes_culled]

theorem loop_counter_culled (camera : Camera F) (lights : Nat → Light F)
    (ms : List (Model F)) :
    ∀ k, loop_counter camera lights (ms.map (Model.culled camera lights)) k =
      loop_counter camera lights ms k := by
  induction ms with
  | nil => intro k; rfl
  | cons m rest ih =>
    intro k
    simp only [List.map_cons, loop_counter, counter_after_culled, ih]

theorem loop_writes_culled (camera : Camera F) (lights : Nat → Light F)
    (ms : List (Model F)) :
    ∀ k, loop_writes camera lights (ms.map (Model.culled camera lights)) k =
      loop_writes camera lights ms k := by
  induction ms with
  | nil => intro k; rfl
  | cons m rest ih =>
    intro k
    simp only [List.map_cons, loop_writes, counter_after_culled, drawable_culled,
      descriptor_culled, ih]

theorem drawn_meshes_sum_culled (camera : Camera F) (lights : Nat → Light F)
    (ms : List (Model F)) :
    ((ms.map (Model.culled camera lights)).map (Model.drawn_meshes camera lights)).sum =
      (ms.map (Model.drawn_meshes camera lights)).sum := by
  simp only [List.map_map]
  congr 1
  apply List.map_congr_left
  intro m _
  exact drawn_meshes_culled camera lights m

theorem apply_writes_cons {G : Type} (w : Nat × gpu_sphere G) (ws : List (Nat × gpu_sphere G))
    (mem : Nat → gpu_sphere G) :
    apply_writes (w :: ws) mem = apply_writes ws (fun j => if j = w.1 then w.2 else mem j) :=
  rfl

theorem apply_writes_untouched {G : Type} (ws : List (Nat × gpu_sphere G)) :
    ∀ (mem : Nat → gpu_sphere G) (j : Nat), (∀ w ∈ ws, w.1 ≠ j) →
      apply_writes ws mem j = mem j := by
  induction ws with
  | nil => intro mem j _; rfl
  | cons w rest ih =>
    intro mem j h
    rw [apply_writes_cons, ih _ j (fun w1 h1 => h w1 (List.mem_cons_of_mem _ h1))]
    have : j ≠ w.1 := fun e => h w (List.mem_cons_self _ _) e.symm
    simp [this]

theorem apply_writes_touched {G : Type} (ws : List (Nat × gpu_sphere G)) :
    ∀ (mem mem1 : Nat → gpu_sphere G) (j : Nat), (∃ w ∈ ws, w.1 = j) →
      apply_writes ws mem j = apply_writes ws mem1 j := by
  induction ws with
  | nil => intro mem mem1 j h; obtain ⟨w, hw, _⟩ := h; cases hw
  | cons w rest ih =>
    intro mem mem1 j h
    rw [apply_writes_cons, apply_writes_cons]
    by_cases hr : ∃ w1 ∈ rest, w1.1 = j
    · exact ih _ _ j hr
    · have hnone : ∀ w1 ∈ rest, w1.1 ≠ j := fun w1 h1 e => hr ⟨w1, h1, e⟩
      rw [apply_writes_untouched rest _ j hnone, apply_writes_untouched rest _ j hnone]
      obtain ⟨w1, hw1, e⟩ := h
      rcases List.mem_cons.mp hw1 with h0 | h0
      · subst h0
        simp [e]
      · exact absurd e (hnone w1 h0)

theorem apply_writes_twice {G : Type} (ws : List (Nat × gpu_sphere G))
    (mem : Nat → gpu_sphere G) :
    apply_writes ws (apply_writes ws mem) = apply_writes ws mem := by
  funext j
  by_cases h : ∃ w ∈ ws, w.1 = j
  · exact apply_writes_touched ws _ _ j h
  · exact apply_writes_untouched ws _ j (fun w hw e => h ⟨w, hw, e⟩)

/-- Claim C7.  Culling is deterministic (the pass is a function of the scene state and
of the camera) and idempotent: a second `cull_models` with the same camera returns
the same value as the first and leaves both registries as the first pass left them
(so every model flag and every mesh flag is unchanged), `models_drawn` has the same
value, and `gpu_spheres` holds the same entry at every index, in particular at the
first `models_drawn` ones. -/
theorem cull_models_idempotent (camera : Camera F) (s : Scene F) :
    (cull_models camera (cull_models camera s).2).1 = (cull_models camera s).1 ∧
      (cull_models camera (cull_models camera s).2).2.loaded_models =
        (cull_models camera s).2.loaded_models ∧
      (cull_models camera (cull_models camera s).2).2.loaded_flat_models =
        (cull_models camera s).2.loaded_flat_models ∧
      (cull_models camera (cull_models camera s).2).2.models_drawn =
        (cull_models camera s).2.models_drawn ∧
      ∀ i, (cull_models camera (cull_models camera s).2).2.gpu_spheres i =
        (cull_models camera s).2.gpu_spheres i := by
  have hall := cull_models_all_models camera s
  have hl : (cull_models camera s).2.lights = s.lights := by rw [cull_models_eq]
  have hm : (cull_models camera s).2.loaded_models =
      s.loaded_models.map (Model.culled camera s.lights) := by rw [cull_models_eq]
  have hf : (cull_models camera s).2.loaded_flat_models =
      s.loaded_flat_models.map (Model.culled camera s.lights) := by rw [cull_models_eq]
  have hg : (cull_models camera s).2.gpu_spheres =
      apply_writes (loop_writes camera s.lights s.all_models 0) s.gpu_spheres := by
    rw [cull_models_eq]
  have hc : (cull_models camera s).2.models_drawn =
      loop_counter camera s.lights s.all_models 0 := by rw [cull_models_eq]
  have hr : (cull_models camera s).1 =
      (s.all_models.map (Model.drawn_meshes camera s.lights)).sum % UINT_MOD := by
    rw [cull_models_eq]
  rw [cull_models_eq camera (cull_models camera s).2]
  simp only [hall, hl, hm, hf, hg, hc, hr, drawn_meshes_sum_culled, loop_counter_culled,
    loop_writes_culled, apply_writes_twice, List.map_map, culled_comp_culled,
    drawn_meshes_comp_culled, true_and, implies_true, and_true]

end Idempotence

/-! ## The returned mesh counts -/

section MeshCounts

variable {F : Type} [LinearOrderedField F]

/-- The number of meshes of `m` that carry a set flag under a set model flag. -/
theorem flagged_count_culled (camera : Camera F) (lights : Nat → Light F) (m : Model F) :
    (if (m.culled camera lights).draw_me then
        (m.culled camera lights).meshes.countP (fun me => me.draw_me)
      else 0) =
      if m.drawable camera lights then
        m.meshes.countP (Mesh.in_frustum camera m.m2w_matrix m.scale)
      else 0 := by
  rw [culled_draw_me, culled_meshes]
  by_cases hd : m.drawable camera lights = true
  · simp only [hd, if_true, List.countP_map]
    rfl
  · simp only [hd, Bool.false_eq_true, if_false]

theorem countP_in_frustum_le (camera : Camera F) (m : Model F) :
    m.meshes.countP (Mesh.in_frustum camera m.m2w_matrix m.scale) ≤ m.meshes.length :=
  List.countP_le_length _

theorem drawn_meshes_exact (camera : Camera F) (lights : Nat → Light F) (m : Model F)
    (h : m.meshes.length < UINT_MOD) :
    m.drawn_meshes camera lights =
      if m.drawable camera lights then
        m.meshes.countP (Mesh.in_frustum camera m.m2w_matrix m.scale)
      else 0 := by
  unfold Model.drawn_meshes
  split
  · exact Nat.mod_eq_of_lt (lt_of_le_of_lt (countP_in_frustum_le camera m) h)
  · rfl

theorem length_le_sum_lengths {G : Type} (ms : List (Model G)) (m : Model G) (hm : m ∈ ms) :
    m.meshes.length ≤ (ms.map (fun m1 => m1.meshes.length)).sum := by
  induction ms with
  | nil => cases hm
  | cons a rest ih =>
    simp only [List.map_cons, List.sum_cons]
    rcases List.mem_cons.mp hm with h | h
    · subst h
      omega
    · have := ih h
      omega

theorem sum_map_le_sum_map {α : Type} (l : List α) (f g : α → Nat)
    (h : ∀ a ∈ l, f a ≤ g a) : (l.map f).sum ≤ (l.map g).sum := by
  induction l with
  | nil => simp
  | cons a rest ih =>
    simp only [List.map_cons, List.sum_cons]
    have h1 := h a (List.mem_cons_self _ _)
    have h2 := ih (fun b hb => h b (List.mem_cons_of_mem _ hb))
    omega

theorem sum_map_congr {α : Type} (l : List α) (f g : α → Nat)
    (h : ∀ a ∈ l, f a = g a) : (l.map f).sum = (l.map g).sum := by
  rw [List.map_congr_left h]

/-- Claim C8.  For a drawable model `cull_me` sets the flag of every mesh to the
outcome of the frustum test on that mesh's sphere (mesh center under `m2w_matrix`,
mesh radius times the model's scale) and returns the number of meshes whose test
passed; `cull_models` returns the sum of the `cull_me` results over the normal
registry followed by the flat registry, which is the number of meshes flagged visible
under a visible model after the pass.  The counts are `unsigned`: they are exact as
long as the meshes number fewer than `2 ^ 32`, and hold modulo `2 ^ 32` in general. -/
theorem cull_mesh_counts (camera : Camera F) :
    (∀ (lights : Nat → Light F) (m : Model F) (st : Statics F),
        m.drawable camera lights = true →
        (m.cull_me camera lights st).2.1.meshes =
            m.meshes.map (Mesh.flagged camera m.m2w_matrix m.scale) ∧
          (m.cull_me camera lights st).1 =
            m.meshes.countP (Mesh.in_frustum camera m.m2w_matrix m.scale) % UINT_MOD ∧
          (m.meshes.length < UINT_MOD →
            (m.cull_me camera lights st).1 =
              m.meshes.countP (Mesh.in_frustum camera m.m2w_matrix m.scale))) ∧
      (∀ (s : Scene F) (st : Statics F),
        (cull_models camera s).1 =
            ((s.loaded_models.map (fun m => (m.cull_me camera s.lights st).1)).sum +
              (s.loaded_flat_models.map (fun m => (m.cull_me camera s.lights st).1)).sum) %
              UINT_MOD ∧
          ((s.all_models.map (fun m => m.meshes.length)).sum < UINT_MOD →
            (cull_models camera s).1 =
                (s.loaded_models.map (fun m => (m.cull_me camera s.lights st).1)).sum +
                  (s.loaded_flat_models.map
                    (fun m => (m.cull_me camera s.lights st).1)).sum ∧
              (cull_models camera s).1 =
                ((cull_models camera s).2.all_models.map
                  (fun m => if m.draw_me then m.meshes.countP (fun me => me.draw_me)
                    else 0)).sum)) := by
  refine ⟨?_, ?_⟩
  · intro lights m st hd
    rw [cull_me_eq]
    refine ⟨?_, ?_, ?_⟩
    · simp only [culled_meshes, hd, if_true]
    · simp only [Model.drawn_meshes, hd, if_true]
    · intro hlen
      simp only [drawn_meshes_exact camera lights m hlen, hd, if_true]
  · intro s st
    have hsum : (s.loaded_models.map (fun m => (m.cull_me camera s.lights st).1)).sum +
        (s.loaded_flat_models.map (fun m => (m.cull_me camera s.lights st).1)).sum =
        (s.all_models.map (Model.drawn_meshes camera s.lights)).sum := by
      simp only [cull_me_eq, Scene.all_models, List.map_append, List.sum_append]
    have hret : (cull_models camera s).1 =
        (s.all_models.map (Model.drawn_meshes camera s.lights)).sum % UINT_MOD := by
      rw [cull_models_eq]
    rw [hsum, hret]
    refine ⟨rfl, ?_⟩
    intro hsize
    have hle : (s.all_models.map (Model.drawn_meshes camera s.lights)).sum ≤
        (s.all_models.map (fun m => m.meshes.length)).sum := by
      apply sum_map_le_sum_map
      intro m _
      unfold Model.drawn_meshes
      split
      · exact le_trans (Nat.mod_le _ _) (countP_in_frustum_le camera m)
      · exact Nat.zero_le _
    rw [Nat.mod_eq_of_lt (lt_of_le_of_lt hle hsize)]
    refine ⟨rfl, ?_⟩
    rw [cull_models_all_models, List.map_map]
    apply sum_map_congr
    intro m hm
    have hlen : m.meshes.length < UINT_MOD :=
      lt_of_le_of_lt (length_le_sum_lengths s.all_models m hm) hsize
    simp only [Function.comp, flagged_count_culled]
    exact drawn_meshes_exact camera s.lights m hlen

end MeshCounts

/-- Witness for claim C8: the drawable model at `(0, 0, -5)` under `cam_front`, and
the two models of `scene_two`. -/
theorem cull_mesh_counts_witness :
    (model_at ⟨0, 0, -5⟩ []).drawable cam_front lights_on = true ∧
      (model_at ⟨0, 0, -5⟩ []).meshes.length < UINT_MOD ∧
      ((model_at ⟨0, 0, -5⟩ []).cull_me cam_front lights_on statics_zero).1 =
        (model_at ⟨0, 0, -5⟩ []).meshes.countP
          (Mesh.in_frustum cam_front (model_at ⟨0, 0, -5⟩ []).m2w_matrix
            (model_at ⟨0, 0, -5⟩ []).scale) ∧
      (scene_two.all_models.map (fun m => m.meshes.length)).sum < UINT_MOD ∧
      (cull_models cam_front scene_two).1 =
        ((cull_models cam_front scene_two).2.all_models.map
          (fun m => if m.draw_me then m.meshes.countP (fun me => me.draw_me) else 0)).sum :=
  have hd : (model_at ⟨0, 0, -5⟩ []).drawable cam_front lights_on = true := by
    simp [model_at, model_with_flags_drawable, cam_front_sees, first_light_active]
  have hlen : (model_at ⟨0, 0, -5⟩ []).meshes.length < UINT_MOD := by
    simp [model_at, model_with_flags, UINT_MOD]
  have hsize : (scene_two.all_models.map (fun m => m.meshes.length)).sum < UINT_MOD := by
    simp [scene_two, Scene.all_models, model_at, model_with_flags, UINT_MOD]
  ⟨hd, hlen,
    ((cull_mesh_counts cam_front).1 lights_on (model_at ⟨0, 0, -5⟩ []) statics_zero hd).2.2 hlen,
    hsize, (((cull_mesh_counts cam_front).2 scene_two statics_zero).2 hsize).2⟩

/-! ## Claims on the bounding spheres -/

/-- Claim C9, evaluated at its failing input.  The model has one mesh, the triangle
`(1, 0, 0)`, `(2, 0, 0)`, `(1, -1, 0)`, whose axis-aligned box runs from `(1, -1, 0)`
to `(2, 0, 0)`: midpoint `(3/2, -1/2, 0)`, a quarter of the squared diagonal `1/2`.
`generate_bounding_sphere` starts all six extrema at the first float `1` of the
stream and therefore computes the box from `(1, -1, 0)` to `(2, 1, 1)`: the mesh and
the model get the center `(3/2, 0, 1/2)` and the radius `sqrt (3/2)`. -/
theorem generate_bounding_sphere_first_float (sqrt : ℚ → ℚ) :
    positions (Mesh.of_vertices [(1 : ℚ), 0, 0, 2, 0, 0, 1, -1, 0]).vertices =
        [⟨1, 0, 0⟩, ⟨2, 0, 0⟩, ⟨1, -1, 0⟩] ∧
      ((Model.of_meshes
            [Mesh.of_vertices [(1 : ℚ), 0, 0, 2, 0, 0, 1, -1, 0]]).generate_bounding_sphere
          sqrt).map
          (fun m1 =>
            (m1.meshes.map (fun me => (me.bounding_sphere_center, me.bounding_sphere_radius)),
              m1.bounding_sphere_center, m1.bounding_sphere_radius)) =
        some ([(⟨3 / 2, 0, 1 / 2⟩, sqrt (3 / 2))], ⟨3 / 2, 0, 1 / 2⟩, sqrt (3 / 2)) := by
  refine ⟨rfl, ?_⟩
  have hscan : ∀ g l : Extrema ℚ,
      scan_vertices [(1 : ℚ), 0, 0, 2, 0, 0, 1, -1, 0] (size_minus_two 9) 0 g l =
        some (((g.add_point ⟨1, 0, 0⟩).add_point ⟨2, 0, 0⟩).add_point ⟨1, -1, 0⟩,
          ((l.add_point ⟨1, 0, 0⟩).add_point ⟨2, 0, 0⟩).add_point ⟨1, -1, 0⟩) := by
    intro g l
    have h := scan_vertices_eq [(1 : ℚ), 0, 0, 2, 0, 0, 1, -1, 0] 3 g l rfl (by decide)
      (by rw [INT_MAX_val]; decide)
    simpa [positions] using h
  have hbox : (((Extrema.init (1 : ℚ)).add_point ⟨1, 0, 0⟩).add_point ⟨2, 0, 0⟩).add_point
      ⟨1, -1, 0⟩ = ⟨2, 1, 1, 1, -1, 0⟩ := by
    simp [Extrema.init, Extrema.add_point, Extrema.update]
    norm_num
  simp only [Model.generate_bounding_sphere, Model.of_meshes, Mesh.of_vertices, scan_meshes,
    List.getElem?_cons_zero, List.length_cons, List.length_nil, hscan, hbox, Option.map,
    List.map_cons, List.map_nil]
  simp [Extrema.center, Extrema.radius, Extrema.r_vector, Extrema.min_corner,
    Extrema.max_corner, Vec3.add, Vec3.sub, Vec3.smul, Vec3.dot, length]
  norm_num

/-- Claim C10.  The computed spheres enclose the geometry.  For a model with at least
one mesh, each mesh holding a stream of `3 * n` floats with `n ≥ 1` (and short enough
for the `int` index), and a square root with `sqrt x * sqrt x = x` on non-negative
`x`: `generate_bounding_sphere` returns, leaves the vertex streams as they are, and
afterwards every vertex `p` of every mesh satisfies
`|p - mesh.bounding_sphere_center|^2 ≤ mesh.bounding_sphere_radius^2` and
`|p - model.bounding_sphere_center|^2 ≤ model.bounding_sphere_radius^2`. -/
theorem generate_bounding_sphere_encloses {F : Type} [LinearOrderedField F] (sqrt : F → F)
    (hsqrt : ∀ x : F, 0 ≤ x → sqrt x * sqrt x = x) (m : Model F) (hne : m.meshes ≠ [])
    (hwf : ∀ me ∈ m.meshes, me.has_vertices) :
    ∃ m1, m.generate_bounding_sphere sqrt = some m1 ∧
      List.Forall₂
        (fun me me1 => me1.vertices = me.vertices ∧
          ∀ p ∈ positions me.vertices,
            dist_sq p me1.bounding_sphere_center ≤
              me1.bounding_sphere_radius * me1.bounding_sphere_radius)
        m.meshes m1.meshes ∧
      ∀ me ∈ m.meshes, ∀ p ∈ positions me.vertices,
        dist_sq p m1.bounding_sphere_center ≤
          m1.bounding_sphere_radius * m1.bounding_sphere_radius := by
  obtain ⟨m1, glob, hrun, hc, hr, hall, hf2⟩ := generate_bounding_sphere_spec sqrt m hne hwf
  refine ⟨m1, hrun, ?_, ?_⟩
  · refine List.Forall₂.imp ?_ hf2
    rintro me me1 ⟨hv, _, loc, hlc, hlr, hin⟩
    refine ⟨hv, fun p hp => ?_⟩
    rw [hlc, hlr]
    exact Extrema.sphere_encloses sqrt hsqrt loc p (hin p hp)
  · intro me hme p hp
    rw [hc, hr]
    exact Extrema.sphere_encloses sqrt hsqrt glob p (hall me hme p hp)

/-- Witness for claim C10: over the real numbers with the real square root, a model
with one mesh holding the vertices `(0, 0, 0)` and `(2, 4, 4)`. -/
theorem generate_bounding_sphere_encloses_witness :
    ∃ m1 : Model ℝ,
      (Model.of_meshes [Mesh.of_vertices [(0 : ℝ), 0, 0, 2, 4, 4]]).generate_bounding_sphere
          Real.sqrt = some m1 ∧
      List.Forall₂
        (fun me me1 => me1.vertices = me.vertices ∧
          ∀ p ∈ positions me.vertices,
            dist_sq p me1.bounding_sphere_center ≤
              me1.bounding_sphere_radius * me1.bounding_sphere_radius)
        (Model.of_meshes [Mesh.of_vertices [(0 : ℝ), 0, 0, 2, 4, 4]]).meshes m1.meshes ∧
      ∀ me ∈ (Model.of_meshes [Mesh.of_vertices [(0 : ℝ), 0, 0, 2, 4, 4]]).meshes,
        ∀ p ∈ positions me.vertices,
          dist_sq p m1.bounding_sphere_center ≤
            m1.bounding_sphere_radius * m1.bounding_sphere_radius :=
  generate_bounding_sphere_encloses Real.sqrt (fun _ hx => Real.mul_self_sqrt hx)
    (Model.of_meshes [Mesh.of_vertices [(0 : ℝ), 0, 0, 2, 4, 4]])
    (by simp [Model.of_meshes])
    (by
      intro me hme
      simp only [Model.of_meshes, List.mem_singleton] at hme
      subst hme
      exact ⟨2, by decide, rfl, by rw [INT_MAX_val]; decide⟩)

/-! ## Input without geometry -/

section NoGeometry

variable {F : Type} [LinearOrderedField F]

theorem scan_meshes_empty_stream (sqrt : F → F) (ms : List (Mesh F)) :
    ∀ g : Extrema F, (∃ me ∈ ms, me.vertices = []) → scan_meshes sqrt ms g = none := by
  induction ms with
  | nil => intro g h; obtain ⟨me, hme, _⟩ := h; cases hme
  | cons me rest ih =>
    intro g h
    rw [scan_meshes]
    cases h0 : me.vertices[0]? with
    | none => rfl
    | some v =>
      have hne : me.vertices ≠ [] := by
        intro he
        rw [he] at h0
        cases h0
      have hrest : ∃ me1 ∈ rest, me1.vertices = [] := by
        obtain ⟨me1, hme1, he⟩ := h
        rcases List.mem_cons.mp hme1 with h1 | h1
        · subst h1
          exact absurd he hne
        · exact ⟨me1, h1, he⟩
      simp only []
      cases hs : scan_vertices me.vertices (size_minus_two me.vertices.length) 0 g
          (Extrema.init v) with
      | none => rfl
      | some r =>
        obtain ⟨g1, loc⟩ := r
        simp only [ih g1 hrest]

/-- Every model with zero meshes, or with a mesh whose vertex stream is empty, sends
`generate_bounding_sphere` into an out-of-range read. -/
theorem generate_bounding_sphere_undefined (sqrt : F → F) (m : Model F)
    (h : m.meshes = [] ∨ ∃ me ∈ m.meshes, me.vertices = []) :
    m.generate_bounding_sphere sqrt = none := by
  rw [Model.generate_bounding_sphere]
  cases hm : m.meshes[0]? with
  | none => rfl
  | some mesh0 =>
    simp only []
    cases h0 : mesh0.vertices[0]? with
    | none => rfl
    | some v =>
      have hex : ∃ me ∈ m.meshes, me.vertices = [] := by
        rcases h with h | h
        · rw [h] at hm
          cases hm
        · exact h
      simp only [scan_meshes_empty_stream sqrt m.meshes (Extrema.init v) hex]

end NoGeometry

/-- Claim C11, evaluated at its failing inputs.  `generate_bounding_sphere` has no
error exit: its embedding returns either the model with its spheres or `none`, which
stands for undefined behaviour.  On a model with zero meshes, on a model whose only
mesh has an empty vertex stream, and on a model whose second mesh has an empty vertex
stream, the outcome is `none`: the unchecked reads `meshes[0]` and `vertices[0]` are
out of range. -/
theorem generate_bounding_sphere_no_geometry (sqrt : ℚ → ℚ) :
    (Model.of_meshes ([] : List (Mesh ℚ))).generate_bounding_sphere sqrt = none ∧
      (Model.of_meshes [Mesh.of_vertices ([] : List ℚ)]).generate_bounding_sphere sqrt =
        none ∧
      (Model.of_meshes [Mesh.of_vertices [(1 : ℚ), 0, 0, 2, 0, 0, 1, -1, 0],
          Mesh.of_vertices []]).generate_bounding_sphere sqrt = none := by
  refine ⟨?_, ?_, ?_⟩
  · exact generate_bounding_sphere_undefined sqrt _ (Or.inl rfl)
  · exact generate_bounding_sphere_undefined sqrt _
      (Or.inr ⟨Mesh.of_vertices [], by simp [Model.of_meshes], rfl⟩)
  · exact generate_bounding_sphere_undefined sqrt _
      (Or.inr ⟨Mesh.of_vertices [], by simp [Model.of_meshes], rfl⟩)

/-! ## The shader roles -/

/-- Claim C17, evaluated at its failing input.  The roles `G_COMPONENT` and
`G_SPECULAR` have the values `4` and `5`, the array `shaders` has the declared length
`4`: exactly the first four roles are valid indices. -/
theorem shader_roles_beyond_array :
    Renderer.shader.G_COMPONENT.value = 4 ∧ Renderer.shader.G_SPECULAR.value = 5 ∧
      Renderer.shaders_length = 4 ∧
      ¬ Renderer.shader.G_COMPONENT.value < Renderer.shaders_length ∧
      ¬ Renderer.shader.G_SPECULAR.value < Renderer.shaders_length ∧
      ∀ r : Renderer.shader, r.value < Renderer.shaders_length ↔
        (r = .FORWARD ∨ r = .GEOMETRY ∨ r = .DEFERRED ∨ r = .FLAT) := by
  refine ⟨rfl, rfl, rfl, by decide, by decide, ?_⟩
  intro r
  cases r <;> simp [Renderer.shader.value, Renderer.shaders_length]

/-! ## The written descriptors and their indices -/

section Descriptors

variable {F : Type} [LinearOrderedField F]

theorem descriptor_eq (camera : Camera F) (m : Model F) :
    m.descriptor camera =
      ⟨vec3 (camera.get_view_matrix.mulVec
          (vec4 (vec3 (m.m2w_matrix.mulVec (vec4 m.bounding_sphere_center 1))) 1)),
        min m.bounding_sphere_radius 10⟩ := by
  unfold Model.descriptor Model.get_center_point_world
  congr 1
  by_cases h : m.bounding_sphere_radius < 10
  · rw [if_pos h, min_eq_left (le_of_lt h)]
  · rw [if_neg h, min_eq_right (le_of_not_lt h)]

theorem loop_writes_origin (camera : Camera F) (lights : Nat → Light F)
    (ms : List (Model F)) :
    ∀ k, ∀ w ∈ loop_writes camera lights ms k,
      ∃ m ∈ ms, m.drawable camera lights = true ∧ w.2 = m.descriptor camera := by
  induction ms with
  | nil => intro k w hw; simp [loop_writes] at hw
  | cons m rest ih =>
    intro k w hw
    simp only [loop_writes, List.mem_append] at hw
    rcases hw with hw | hw
    · split at hw
      · rename_i hd
        rw [List.mem_singleton.mp hw]
        exact ⟨m, List.mem_cons_self _ _, hd, rfl⟩
      · cases hw
    · obtain ⟨m1, hm1, hd, he⟩ := ih _ w hw
      exact ⟨m1, List.mem_cons_of_mem _ hm1, hd, he⟩

/-- Claim C13.  `cull_me` writes exactly one descriptor when the model is drawable
and none otherwise; the descriptor is written at index `models_drawn`, its position
is the camera's view matrix applied to the world-space center `m2w_matrix *
bounding_sphere_center`, and its radius is `min(bounding_sphere_radius, 10)`, which
is at most `10`.  Hence every descriptor written during a pass of `cull_models` is
the descriptor of a drawable model and has a radius of at most `10`. -/
theorem cull_me_descriptor (camera : Camera F) :
    (∀ (lights : Nat → Light F) (m : Model F) (st : Statics F),
        (m.cull_me camera lights st).2.2.write_log =
            st.write_log ++
              (if m.drawable camera lights then
                [(st.models_drawn,
                  (⟨vec3 (camera.get_view_matrix.mulVec
                      (vec4 (vec3 (m.m2w_matrix.mulVec (vec4 m.bounding_sphere_center 1))) 1)),
                    min m.bounding_sphere_radius 10⟩ : gpu_sphere F))]
              else []) ∧
          (if m.drawable camera lights then
            (m.cull_me camera lights st).2.2.gpu_spheres st.models_drawn =
              ⟨vec3 (camera.get_view_matrix.mulVec
                  (vec4 (vec3 (m.m2w_matrix.mulVec (vec4 m.bounding_sphere_center 1))) 1)),
                min m.bounding_sphere_radius 10⟩
          else (m.cull_me camera lights st).2.2.gpu_spheres = st.gpu_spheres) ∧
          min m.bounding_sphere_radius 10 ≤ 10) ∧
      (∀ s : Scene F, ∃ ws, (cull_models camera s).2.write_log = s.write_log ++ ws ∧
        ∀ w ∈ ws, w.2.radius ≤ 10 ∧
          ∃ m ∈ s.all_models, m.drawable camera s.lights = true ∧
            w.2 = ⟨vec3 (camera.get_view_matrix.mulVec
                (vec4 (vec3 (m.m2w_matrix.mulVec (vec4 m.bounding_sphere_center 1))) 1)),
              min m.bounding_sphere_radius 10⟩) := by
  refine ⟨?_, ?_⟩
  · intro lights m st
    rw [cull_me_eq, ← descriptor_eq]
    refine ⟨?_, ?_, min_le_right _ _⟩
    · by_cases hd : m.drawable camera lights = true
      · simp [hd]
      · simp [hd]
    · by_cases hd : m.drawable camera lights = true
      · simp [hd]
      · simp [hd]
  · intro s
    rw [cull_models_eq]
    refine ⟨_, rfl, ?_⟩
    intro w hw
    obtain ⟨m, hm, hd, he⟩ := loop_writes_origin camera s.lights s.all_models 0 w hw
    refine ⟨?_, m, hm, hd, ?_⟩
    · rw [he, descriptor_eq]
      exact min_le_right _ _
    · rw [he, descriptor_eq]

theorem UINT_MOD_val : UINT_MOD = 4294967296 := by norm_num [UINT_MOD]

theorem counter_after_eq (camera : Camera F) (lights : Nat → Light F) (m : Model F)
    (k : Nat) (hk : k < UINT_MOD) :
    m.counter_after camera lights k =
      (k + (if m.drawable camera lights then 1 else 0) +
        (if m.drawn_meshes camera lights ≠ 0 then 1 else 0)) % UINT_MOD := by
  unfold Model.counter_after
  rw [UINT_MOD_val] at hk ⊢
  split <;> split <;> simp only [] <;> omega

theorem loop_counter_eq (camera : Camera F) (lights : Nat → Light F) (ms : List (Model F)) :
    ∀ k, k < UINT_MOD →
      loop_counter camera lights ms k =
        (k + ms.countP (Model.drawable camera lights) +
          ms.countP (fun m => decide (m.drawn_meshes camera lights ≠ 0))) % UINT_MOD := by
  induction ms with
  | nil => intro k hk; simp [loop_counter, Nat.mod_eq_of_lt hk]
  | cons m rest ih =>
    intro k hk
    have hlt : m.counter_after camera lights k < UINT_MOD := by
      rw [counter_after_eq camera lights m k hk]
      exact Nat.mod_lt _ (by decide)
    rw [loop_counter, ih _ hlt, counter_after_eq camera lights m k hk, List.countP_cons,
      List.countP_cons]
    rw [UINT_MOD_val]
    by_cases hd : m.drawable camera lights = true <;>
      by_cases hz : m.drawn_meshes camera lights = 0 <;>
      simp [hd, hz] <;> omega

/-- Claim C16.  After `cull_models` the counter `models_drawn` equals the number of
models found drawable plus the number of models for which `cull_me` returned a
non-zero mesh count, as a 32-bit unsigned value (exactly, when twice the number of
models is below `2 ^ 32`).  The descriptor of a drawable model is written at the
value the counter has when the loop reaches that model, which is the same sum taken
over the models before it, and it is preceded by one write for every drawable model
before it. -/
theorem models_drawn_double_count (camera : Camera F) (s : Scene F) (st : Statics F) :
    (cull_models camera s).2.models_drawn =
        (s.all_models.countP (Model.drawable camera s.lights) +
          s.all_models.countP (fun m => decide ((m.cull_me camera s.lights st).1 ≠ 0))) %
          UINT_MOD ∧
      (2 * s.all_models.length < UINT_MOD →
        (cull_models camera s).2.models_drawn =
          s.all_models.countP (Model.drawable camera s.lights) +
            s.all_models.countP (fun m => decide ((m.cull_me camera s.lights st).1 ≠ 0))) ∧
      (∀ (pre post : List (Model F)) (m : Model F), s.all_models = pre ++ m :: post →
        m.drawable camera s.lights = true →
        ∃ ws1 ws2, (cull_models camera s).2.write_log =
            s.write_log ++ ws1 ++
              ((pre.countP (Model.drawable camera s.lights) +
                  pre.countP (fun m1 => decide ((m1.cull_me camera s.lights st).1 ≠ 0))) %
                  UINT_MOD,
                m.descriptor camera) :: ws2 ∧
          ws1.length = pre.countP (Model.drawable camera s.lights)) := by
  have hc : (cull_models camera s).2.models_drawn =
      loop_counter camera s.lights s.all_models 0 := by rw [cull_models_eq]
  have hw : (cull_models camera s).2.write_log =
      s.write_log ++ loop_writes camera s.lights s.all_models 0 := by rw [cull_models_eq]
  simp only [cull_me_eq]
  have hmain := loop_counter_eq camera s.lights s.all_models 0 (by decide)
  rw [Nat.zero_add] at hmain
  refine ⟨by rw [hc, hmain], ?_, ?_⟩
  · intro hsize
    rw [hc, hmain]
    apply Nat.mod_eq_of_lt
    have h1 := List.countP_le_length (Model.drawable camera s.lights) (l := s.all_models)
    have h2 := List.countP_le_length
      (fun m => decide (m.drawn_meshes camera s.lights ≠ 0)) (l := s.all_models)
    omega
  · intro pre post m hsplit hd
    have hpre := loop_counter_eq camera s.lights pre 0 (by decide)
    rw [Nat.zero_add] at hpre
    refine ⟨loop_writes camera s.lights pre 0,
      loop_writes camera s.lights post
        (m.counter_after camera s.lights (loop_counter camera s.lights pre 0)), ?_,
      loop_writes_length camera s.lights pre 0⟩
    rw [hw, hsplit, loop_writes_append, loop_writes, hd, if_pos rfl, hpre]
    simp [List.append_assoc]

end Descriptors

/-! ## Light positions under the mutators -/

section LightClaims

variable {F : Type} [LinearOrderedField F]

theorem set_light_position_same {G : Type} (lights : Nat → Light G) (a : Nat) (p : Vec3 G) :
    (set_light_position lights a p a).position = p := by
  simp [set_light_position]

theorem set_light_position_other {G : Type} (lights : Nat → Light G) (a b : Nat)
    (p : Vec3 G) (h : b ≠ a) : set_light_position lights a p b = lights b := by
  simp [set_light_position, h]

theorem update_lights_untouched (m2w : Mat4 F) (cs : List (light_container F)) :
    ∀ (lights : Nat → Light F) (a : Nat), a ∉ cs.map (fun c => c.light) →
      update_lights m2w cs lights a = lights a := by
  induction cs with
  | nil => intro lights a _; rfl
  | cons c rest ih =>
    intro lights a ha
    simp only [List.map_cons, List.mem_cons, not_or] at ha
    rw [update_lights, ih _ a ha.2, set_light_position_other _ _ _ _ ha.1]

theorem update_lights_consistent (m2w : Mat4 F) (cs : List (light_container F)) :
    ∀ (lights : Nat → Light F), (cs.map (fun c => c.light)).Nodup →
      ∀ c ∈ cs, (update_lights m2w cs lights c.light).position =
        vec3 (m2w.mulVec (vec4 c.relative_pos 1)) := by
  induction cs with
  | nil => intro lights _ c hc; cases hc
  | cons c0 rest ih =>
    intro lights hnd c hc
    simp only [List.map_cons, List.nodup_cons] at hnd
    rw [update_lights]
    by_cases hin : c ∈ rest
    · exact ih _ hnd.2 c hin
    · rcases List.mem_cons.mp hc with h | h
      · subst h
        rw [update_lights_untouched m2w rest _ _ hnd.1, set_light_position_same]
      · exact absurd h hin

theorem attach_light_consistent (m : Model F) (lights : Nat → Light F) (light : Nat)
    (relative_pos : Vec3 F) (hc : m.lights_consistent lights)
    (hd : (m.attach_light lights light relative_pos).1.lights_distinct) :
    (m.attach_light lights light relative_pos).1.lights_consistent
      (m.attach_light lights light relative_pos).2 := by
  simp only [Model.lights_distinct, Model.attach_light, List.map_append, List.map_cons,
    List.map_nil] at hd
  have hnot : light ∉ m.attached_lights.map (fun c => c.light) := by
    intro hin
    exact (List.nodup_append.mp hd).2.2 hin (List.mem_singleton.mpr rfl)
  intro c hcm
  simp only [Model.attach_light, List.mem_append, List.mem_singleton] at hcm ⊢
  rcases hcm with h | h
  · have hne : c.light ≠ light := by
      intro he
      exact hnot (he ▸ List.mem_map_of_mem (fun c => c.light) h)
    rw [set_light_position_other _ _ _ _ hne]
    exact hc c h
  · subst h
    exact set_light_position_same _ _ _

theorem move_to_consistent (m : Model F) (lights : Nat → Light F) (world_coord : Vec3 F)
    (hd : m.lights_distinct) :
    (m.move_to lights world_coord).1.lights_consistent (m.move_to lights world_coord).2 :=
  fun c hc => update_lights_consistent _ _ lights hd c hc

theorem rotate_consistent (glm_rotate : Mat4 F → F → Vec3 F → Mat4 F) (m : Model F)
    (lights : Nat → Light F) (axis : Vec3 F) (angle : F) (hd : m.lights_distinct) :
    (m.rotate glm_rotate lights axis angle).1.lights_consistent
      (m.rotate glm_rotate lights axis angle).2 :=
  fun c hc => update_lights_consistent _ _ lights hd c hc

theorem apply_attached_lights (glm_rotate : Mat4 F → F → Vec3 F → Mat4 F)
    (st : Model F × (Nat → Light F)) (op : Mutator F) :
    ∃ ext, (op.apply glm_rotate st).1.attached_lights = st.1.attached_lights ++ ext := by
  cases op with
  | attach_light light relative_pos => exact ⟨[⟨light, relative_pos⟩], rfl⟩
  | move_to world_coord => exact ⟨[], (List.append_nil _).symm⟩
  | move relative => exact ⟨[], (List.append_nil _).symm⟩
  | rotate axis angle => exact ⟨[], (List.append_nil _).symm⟩

theorem foldl_attached_lights (glm_rotate : Mat4 F → F → Vec3 F → Mat4 F)
    (ops : List (Mutator F)) :
    ∀ st : Model F × (Nat → Light F),
      ∃ ext, (ops.foldl (fun s op => op.apply glm_rotate s) st).1.attached_lights =
        st.1.attached_lights ++ ext := by
  induction ops with
  | nil => intro st; exact ⟨[], (List.append_nil _).symm⟩
  | cons op rest ih =>
    intro st
    obtain ⟨e1, h1⟩ := apply_attached_lights glm_rotate st op
    obtain ⟨e2, h2⟩ := ih (op.apply glm_rotate st)
    exact ⟨e1 ++ e2, by rw [List.foldl_cons, h2, h1, List.append_assoc]⟩

theorem lights_distinct_of_head_part {G : Type} (m m1 : Model G)
    (ext : List (light_container G))
    (h : m1.attached_lights = m.attached_lights ++ ext) (hd : m1.lights_distinct) :
    m.lights_distinct := by
  unfold Model.lights_distinct at hd ⊢
  rw [h, List.map_append] at hd
  exact (List.nodup_append.mp hd).1

theorem apply_consistent (glm_rotate : Mat4 F → F → Vec3 F → Mat4 F)
    (st : Model F × (Nat → Light F)) (op : Mutator F) (hc : st.1.lights_consistent st.2)
    (hd : (op.apply glm_rotate st).1.lights_distinct) :
    (op.apply glm_rotate st).1.lights_consistent (op.apply glm_rotate st).2 := by
  cases op with
  | attach_light light relative_pos => exact attach_light_consistent _ _ _ _ hc hd
  | move_to world_coord => exact move_to_consistent _ _ _ hd
  | move relative => exact move_to_consistent _ _ _ hd
  | rotate axis angle => exact rotate_consistent _ _ _ _ _ hd

theorem foldl_consistent (glm_rotate : Mat4 F → F → Vec3 F → Mat4 F)
    (ops : List (Mutator F)) :
    ∀ st : Model F × (Nat → Light F), st.1.lights_consistent st.2 →
      (ops.foldl (fun s op => op.apply glm_rotate s) st).1.lights_distinct →
      (ops.foldl (fun s op => op.apply glm_rotate s) st).1.lights_consistent
        (ops.foldl (fun s op => op.apply glm_rotate s) st).2 := by
  induction ops with
  | nil => intro st hc _; exact hc
  | cons op rest ih =>
    intro st hc hd
    rw [List.foldl_cons] at hd ⊢
    obtain ⟨ext, hext⟩ := foldl_attached_lights glm_rotate rest (op.apply glm_rotate st)
    exact ih _ (apply_consistent glm_rotate st op hc
      (lights_distinct_of_head_part _ _ ext hext hd)) hd

theorem attach_light_consistent_iff (m : Model F) (lights : Nat → Light F) (light : Nat)
    (relative_pos : Vec3 F)
    (hd : (m.attach_light lights light relative_pos).1.lights_distinct) :
    (m.attach_light lights light relative_pos).1.lights_consistent
        (m.attach_light lights light relative_pos).2 ↔ m.lights_consistent lights := by
  refine ⟨fun h => ?_, fun hc => attach_light_consistent m lights light relative_pos hc hd⟩
  have hd1 := hd
  simp only [Model.lights_distinct, Model.attach_light, List.map_append, List.map_cons,
    List.map_nil] at hd1
  have hnot : light ∉ m.attached_lights.map (fun c => c.light) := by
    intro hin
    exact (List.nodup_append.mp hd1).2.2 hin (List.mem_singleton.mpr rfl)
  intro c hcm
  have hne : c.light ≠ light := by
    intro he
    exact hnot (he ▸ List.mem_map_of_mem (fun c => c.light) hcm)
  have h1 := h c (by
    simp only [Model.attach_light, List.mem_append, List.mem_singleton]
    exact Or.inl hcm)
  simp only [Model.attach_light] at h1
  rw [set_light_position_other _ _ _ _ hne] at h1
  exact h1

theorem update_lights_keeps (m2w : Mat4 F) (cs : List (light_container F)) :
    ∀ (lights : Nat → Light F) (a : Nat),
      (update_lights m2w cs lights a).color = (lights a).color ∧
        (update_lights m2w cs lights a).active = (lights a).active := by
  induction cs with
  | nil => intro lights a; exact ⟨rfl, rfl⟩
  | cons c rest ih =>
    intro lights a
    rw [update_lights]
    refine ⟨(ih _ a).1.trans ?_, (ih _ a).2.trans ?_⟩
    · unfold set_light_position
      split <;> rfl
    · unfold set_light_position
      split <;> rfl

/-- Claim C12, amended.  `attach_light(light, relative_pos)` pushes the container
`(light, relative_pos)` onto `attached_lights`, increments `num_lights`, leaves
`m2w_matrix` alone, moves the new light to `m2w_matrix * relative_pos` and changes
nothing else on the heap of lights; hence, when the attached lights are distinct
after the call, every attached light sits at `m2w_matrix * relative_pos` after the
call exactly when the lights attached before did so before it.  `move_to`, `move`
and `rotate` keep `attached_lights`, touch the position of attached lights only, and
on a model whose attached lights are distinct they leave every attached light at the
new `m2w_matrix * relative_pos`, wherever the lights were before.  Hence after any
sequence of the four mutators, started on a model whose lights are consistent (such
as a freshly constructed one, which has no light), every attached light's position
equals the current `m2w_matrix` applied to its stored `relative_pos`. -/
theorem lights_follow_transform (glm_rotate : Mat4 F → F → Vec3 F → Mat4 F) (m : Model F)
    (lights : Nat → Light F) :
    (∀ light relative_pos,
        (m.attach_light lights light relative_pos).1.attached_lights =
            m.attached_lights ++ [⟨light, relative_pos⟩] ∧
          (m.attach_light lights light relative_pos).1.num_lights = m.num_lights + 1 ∧
          (m.attach_light lights light relative_pos).1.m2w_matrix = m.m2w_matrix ∧
          (m.attach_light lights light relative_pos).2 light =
            { lights light with
              position := vec3 (m.m2w_matrix.mulVec (vec4 relative_pos 1)) } ∧
          (∀ a, a ≠ light → (m.attach_light lights light relative_pos).2 a = lights a) ∧
          ((m.attach_light lights light relative_pos).1.lights_distinct →
            ((m.attach_light lights light relative_pos).1.lights_consistent
                (m.attach_light lights light relative_pos).2 ↔
              m.lights_consistent lights))) ∧
      (∀ world_coord,
        (m.move_to lights world_coord).1.attached_lights = m.attached_lights ∧
          (∀ a, a ∉ m.attached_lights.map (fun c => c.light) →
            (m.move_to lights world_coord).2 a = lights a) ∧
          (∀ a, ((m.move_to lights world_coord).2 a).color = (lights a).color ∧
            ((m.move_to lights world_coord).2 a).active = (lights a).active) ∧
          (m.lights_distinct →
            (m.move_to lights world_coord).1.lights_consistent
              (m.move_to lights world_coord).2)) ∧
      (∀ relative,
        (m.move lights relative).1.attached_lights = m.attached_lights ∧
          (∀ a, a ∉ m.attached_lights.map (fun c => c.light) →
            (m.move lights relative).2 a = lights a) ∧
          (∀ a, ((m.move lights relative).2 a).color = (lights a).color ∧
            ((m.move lights relative).2 a).active = (lights a).active) ∧
          (m.lights_distinct →
            (m.move lights relative).1.lights_consistent (m.move lights relative).2)) ∧
      (∀ axis angle,
        (m.rotate glm_rotate lights axis angle).1.attached_lights = m.attached_lights ∧
          (∀ a, a ∉ m.attached_lights.map (fun c => c.light) →
            (m.rotate glm_rotate lights axis angle).2 a = lights a) ∧
          (∀ a, ((m.rotate glm_rotate lights axis angle).2 a).color = (lights a).color ∧
            ((m.rotate glm_rotate lights axis angle).2 a).active = (lights a).active) ∧
          (m.lights_distinct →
            (m.rotate glm_rotate lights axis angle).1.lights_consistent
              (m.rotate glm_rotate lights axis angle).2)) ∧
      (∀ ops : List (Mutator F), m.lights_consistent lights →
        (ops.foldl (fun s op => op.apply glm_rotate s) (m, lights)).1.lights_distinct →
        (ops.foldl (fun s op => op.apply glm_rotate s) (m, lights)).1.lights_consistent
          (ops.foldl (fun s op => op.apply glm_rotate s) (m, lights)).2) := by
  refine ⟨fun light relative_pos => ⟨rfl, rfl, rfl, ?_, ?_, ?_⟩,
    fun world_coord => ⟨rfl, ?_, ?_, ?_⟩, fun relative => ⟨rfl, ?_, ?_, ?_⟩,
    fun axis angle => ⟨rfl, ?_, ?_, ?_⟩,
    fun ops hc hd => foldl_consistent glm_rotate ops (m, lights) hc hd⟩
  · simp [Model.attach_light, set_light_position]
  · intro a ha
    exact set_light_position_other _ _ _ _ ha
  · exact attach_light_consistent_iff m lights light relative_pos
  · exact fun a ha => update_lights_untouched _ _ lights a ha
  · exact fun a => update_lights_keeps _ _ lights a
  · exact move_to_consistent m lights world_coord
  · exact fun a ha => update_lights_untouched _ _ lights a ha
  · exact fun a => update_lights_keeps _ _ lights a
  · exact move_to_consistent m lights _
  · exact fun a ha => update_lights_untouched _ _ lights a ha
  · exact fun a => update_lights_keeps _ _ lights a
  · exact rotate_consistent glm_rotate m lights axis angle

end LightClaims

/-! ## The composed transform -/

section TransformClaims

variable {F : Type} [LinearOrderedField F]

theorem generate_bounding_sphere_frame (sqrt : F → F) (m m1 : Model F)
    (h : m.generate_bounding_sphere sqrt = some m1) :
    m1.rot_matrix = m.rot_matrix ∧ m1.scale = m.scale ∧ m1.scale_matrix = m.scale_matrix ∧
      m1.world_coord = m.world_coord ∧ m1.move_matrix = m.move_matrix ∧
      m1.m2w_matrix = m.m2w_matrix ∧ m1.attached_lights = m.attached_lights ∧
      m1.draw_me = m.draw_me := by
  rw [Model.generate_bounding_sphere] at h
  cases hm : m.meshes[0]? with
  | none => rw [hm] at h; cases h
  | some mesh0 =>
    rw [hm] at h
    simp only [] at h
    cases h0 : mesh0.vertices[0]? with
    | none => rw [h0] at h; cases h
    | some v =>
      rw [h0] at h
      simp only [] at h
      cases hs : scan_meshes sqrt m.meshes (Extrema.init v) with
      | none => rw [hs] at h; cases h
      | some r =>
        rw [hs] at h
        obtain ⟨meshes1, glob⟩ := r
        simp only [Option.some.injEq] at h
        subst h
        exact ⟨rfl, rfl, rfl, rfl, rfl, rfl, rfl, rfl⟩

theorem initialised_composed (loaded : List (Mesh F)) (rot_matrix : Mat4 F) (scale : F)
    (scale_matrix : Mat4 F) (world_coord : Vec3 F) (draw_me0 : Bool) :
    (Model.initialised loaded rot_matrix scale scale_matrix world_coord
      draw_me0).transform_composed :=
  ⟨rfl, rfl⟩

theorem transform_composed_of_frame (m m1 : Model F) (h : m.transform_composed)
    (hr : m1.rot_matrix = m.rot_matrix) (hs : m1.scale_matrix = m.scale_matrix)
    (hw : m1.world_coord = m.world_coord) (hmv : m1.move_matrix = m.move_matrix)
    (hm : m1.m2w_matrix = m.m2w_matrix) : m1.transform_composed := by
  unfold Model.transform_composed at h ⊢
  rw [hr, hs, hw, hmv, hm]
  exact h

theorem construct_default_composed (sqrt : F → F) (loaded : List (Mesh F)) (draw_me0 : Bool)
    (m1 : Model F) (h : Model.construct_default sqrt loaded draw_me0 = some m1) :
    m1.transform_composed := by
  obtain ⟨hr, _, hs, hw, hmv, hm, _, _⟩ := generate_bounding_sphere_frame sqrt _ m1 h
  exact transform_composed_of_frame _ m1 (initialised_composed _ _ _ _ _ _) hr hs hw hmv hm

theorem construct_object (sqrt : F → F) (clear_mem : Mesh F → Mesh F)
    (loaded : List (Mesh F)) (rot_matrix : Mat4 F) (world_coord : Vec3 F) (scale : F)
    (flat : Bool) (draw_me0 : Bool) (this : Nat) (w : World F) (m1 : Model F)
    (h : (Model.initialised loaded rot_matrix scale (glm_scale (mat4 1) ⟨scale, scale, scale⟩)
      world_coord draw_me0).generate_bounding_sphere sqrt = some m1) :
    Model.construct sqrt clear_mem loaded rot_matrix world_coord scale flat draw_me0 this w =
      some
        { objects := fun a =>
            if a = this then
              Model.clear_meshes clear_mem
                (if flat = false then m1
                 else { m1 with bounding_sphere_radius := m1.bounding_sphere_radius * 3 })
            else w.objects a
          loaded_models := if flat = false then w.loaded_models ++ [this] else w.loaded_models
          loaded_flat_models :=
            if flat = false then w.loaded_flat_models else w.loaded_flat_models ++ [this] } := by
  unfold Model.construct
  simp only [h]
  cases flat <;> simp

theorem construct_returns (sqrt : F → F) (loaded : List (Mesh F)) (rot_matrix : Mat4 F)
    (scale : F) (scale_matrix : Mat4 F) (world_coord : Vec3 F) (draw_me0 : Bool)
    (hne : loaded ≠ []) (hwf : ∀ me ∈ loaded, me.has_vertices) :
    ∃ m1, (Model.initialised loaded rot_matrix scale scale_matrix world_coord
      draw_me0).generate_bounding_sphere sqrt = some m1 := by
  obtain ⟨m1, _, h, _⟩ := generate_bounding_sphere_spec sqrt
    (Model.initialised loaded rot_matrix scale scale_matrix world_coord draw_me0) hne hwf
  exact ⟨m1, h⟩

theorem construct_inv (sqrt : F → F) (clear_mem : Mesh F → Mesh F)
    (loaded : List (Mesh F)) (rot_matrix : Mat4 F) (world_coord : Vec3 F) (scale : F)
    (flat : Bool) (draw_me0 : Bool) (this : Nat) (w w1 : World F)
    (h : Model.construct sqrt clear_mem loaded rot_matrix world_coord scale flat draw_me0
      this w = some w1) :
    ∃ m1, (Model.initialised loaded rot_matrix scale
        (glm_scale (mat4 1) ⟨scale, scale, scale⟩) world_coord
        draw_me0).generate_bounding_sphere sqrt = some m1 := by
  cases hg : (Model.initialised loaded rot_matrix scale
      (glm_scale (mat4 1) ⟨scale, scale, scale⟩) world_coord
      draw_me0).generate_bounding_sphere sqrt with
  | none =>
    unfold Model.construct at h
    simp only [hg] at h
    cases h
  | some m1 => exact ⟨m1, rfl⟩

theorem construct_composed (sqrt : F → F) (clear_mem : Mesh F → Mesh F)
    (loaded : List (Mesh F)) (rot_matrix : Mat4 F) (world_coord : Vec3 F) (scale : F)
    (flat : Bool) (draw_me0 : Bool) (this : Nat) (w w1 : World F)
    (h : Model.construct sqrt clear_mem loaded rot_matrix world_coord scale flat draw_me0
      this w = some w1) :
    (w1.objects this).transform_composed ∧ (w1.objects this).rot_matrix = rot_matrix ∧
      (w1.objects this).scale = scale ∧
      (w1.objects this).scale_matrix = glm_scale (mat4 1) ⟨scale, scale, scale⟩ ∧
      (w1.objects this).world_coord = world_coord := by
  obtain ⟨m1, hg⟩ := construct_inv sqrt clear_mem loaded rot_matrix world_coord scale flat
    draw_me0 this w w1 h
  obtain ⟨hr, hsc, hs, hw, hmv, hm, _, _⟩ := generate_bounding_sphere_frame sqrt _ m1 hg
  rw [construct_object sqrt clear_mem loaded rot_matrix world_coord scale flat draw_me0 this
    w m1 hg] at h
  simp only [Option.some.injEq] at h
  subst h
  simp only [if_true]
  cases flat
  · exact ⟨transform_composed_of_frame _ _ (initialised_composed _ _ _ _ _ _) hr hs hw hmv hm,
      hr, hsc, hs, hw⟩
  · exact ⟨transform_composed_of_frame _ _ (initialised_composed _ _ _ _ _ _) hr hs hw hmv hm,
      hr, hsc, hs, hw⟩

theorem move_to_composed (m : Model F) (lights : Nat → Light F) (world_coord : Vec3 F) :
    (m.move_to lights world_coord).1.transform_composed :=
  ⟨rfl, rfl⟩

theorem rotate_composed (glm_rotate : Mat4 F → F → Vec3 F → Mat4 F) (m : Model F)
    (lights : Nat → Light F) (axis : Vec3 F) (angle : F) (h : m.transform_composed) :
    (m.rotate glm_rotate lights axis angle).1.transform_composed :=
  ⟨rfl, h.2⟩

theorem apply_composed (glm_rotate : Mat4 F → F → Vec3 F → Mat4 F)
    (st : Model F × (Nat → Light F)) (op : Mutator F) (h : st.1.transform_composed) :
    (op.apply glm_rotate st).1.transform_composed := by
  cases op with
  | attach_light light relative_pos => exact h
  | move_to world_coord => exact move_to_composed _ _ _
  | move relative => exact move_to_composed _ _ _
  | rotate axis angle => exact rotate_composed _ _ _ _ _ h

theorem foldl_composed (glm_rotate : Mat4 F → F → Vec3 F → Mat4 F) (ops : List (Mutator F)) :
    ∀ st : Model F × (Nat → Light F), st.1.transform_composed →
      (ops.foldl (fun s op => op.apply glm_rotate s) st).1.transform_composed := by
  induction ops with
  | nil => intro st h; exact h
  | cons op rest ih =>
    intro st h
    rw [List.foldl_cons]
    exact ih _ (apply_composed glm_rotate st op h)

/-- Claim C14.  Transform recomposition.  After `move_to` and after `move` the
matrix `m2w_matrix` equals `move_matrix * rot_matrix * scale_matrix` with
`move_matrix` the translation by the new `world_coord`, while `rot_matrix`, `scale`
and `scale_matrix` are unchanged; `move(r)` is `move_to(world_coord + r)`; after
`rotate` the matrix `m2w_matrix` equals `move_matrix * rot_matrix * scale_matrix`
for the new `rot_matrix`, while `world_coord`, `move_matrix`, `scale` and
`scale_matrix` are unchanged; both constructors, when they return, leave a composed
transform, and they do return on meshes with vertices; and the composed transform is
kept by every sequence of mutator calls. -/
theorem transform_recomposed (glm_rotate : Mat4 F → F → Vec3 F → Mat4 F) (m : Model F)
    (lights : Nat → Light F) :
    (∀ world_coord,
        (m.move_to lights world_coord).1.transform_composed ∧
          (m.move_to lights world_coord).1.world_coord = world_coord ∧
          (m.move_to lights world_coord).1.rot_matrix = m.rot_matrix ∧
          (m.move_to lights world_coord).1.scale = m.scale ∧
          (m.move_to lights world_coord).1.scale_matrix = m.scale_matrix) ∧
      (∀ relative, m.move lights relative = m.move_to lights (m.world_coord.add relative)) ∧
      (∀ axis angle,
        (m.rotate glm_rotate lights axis angle).1.m2w_matrix =
            ((m.rotate glm_rotate lights axis angle).1.move_matrix.mul
              (m.rotate glm_rotate lights axis angle).1.rot_matrix).mul
              (m.rotate glm_rotate lights axis angle).1.scale_matrix ∧
          (m.rotate glm_rotate lights axis angle).1.rot_matrix =
            glm_rotate m.rot_matrix angle axis ∧
          (m.rotate glm_rotate lights axis angle).1.world_coord = m.world_coord ∧
          (m.rotate glm_rotate lights axis angle).1.move_matrix = m.move_matrix ∧
          (m.rotate glm_rotate lights axis angle).1.scale = m.scale ∧
          (m.rotate glm_rotate lights axis angle).1.scale_matrix = m.scale_matrix ∧
          (m.transform_composed →
            (m.rotate glm_rotate lights axis angle).1.transform_composed)) ∧
      (∀ (sqrt : F → F) (loaded : List (Mesh F)) (draw_me0 : Bool),
        (∀ m1, Model.construct_default sqrt loaded draw_me0 = some m1 →
            m1.transform_composed) ∧
          (loaded ≠ [] → (∀ me ∈ loaded, me.has_vertices) →
            ∃ m1, Model.construct_default sqrt loaded draw_me0 = some m1)) ∧
      (∀ (sqrt : F → F) (clear_mem : Mesh F → Mesh F) (loaded : List (Mesh F))
          (rot_matrix : Mat4 F) (world_coord : Vec3 F) (scale : F) (flat draw_me0 : Bool)
          (this : Nat) (w : World F),
        (∀ w1, Model.construct sqrt clear_mem loaded rot_matrix world_coord scale flat
              draw_me0 this w = some w1 →
            (w1.objects this).transform_composed ∧
              (w1.objects this).rot_matrix = rot_matrix ∧
              (w1.objects this).scale = scale ∧
              (w1.objects this).scale_matrix = glm_scale (mat4 1) ⟨scale, scale, scale⟩ ∧
              (w1.objects this).world_coord = world_coord) ∧
          (loaded ≠ [] → (∀ me ∈ loaded, me.has_vertices) →
            ∃ w1, Model.construct sqrt clear_mem loaded rot_matrix world_coord scale flat
              draw_me0 this w = some w1)) ∧
      (∀ ops : List (Mutator F), m.transform_composed →
        (ops.foldl (fun s op => op.apply glm_rotate s) (m, lights)).1.transform_composed) := by
  refine ⟨fun world_coord => ⟨move_to_composed m lights world_coord, rfl, rfl, rfl, rfl⟩,
    fun _ => rfl,
    fun axis angle => ⟨rfl, rfl, rfl, rfl, rfl, rfl, rotate_composed glm_rotate m lights axis angle⟩,
    ?_, ?_, fun ops h => foldl_composed glm_rotate ops (m, lights) h⟩
  · intro sqrt loaded draw_me0
    exact ⟨fun m1 h => construct_default_composed sqrt loaded draw_me0 m1 h,
      fun hne hwf => construct_returns sqrt loaded _ _ _ _ draw_me0 hne hwf⟩
  · intro sqrt clear_mem loaded rot_matrix world_coord scale flat draw_me0 this w
    refine ⟨fun w1 h => construct_composed sqrt clear_mem loaded rot_matrix world_coord scale
      flat draw_me0 this w w1 h, fun hne hwf => ?_⟩
    obtain ⟨m1, hg⟩ := construct_returns sqrt loaded rot_matrix scale
      (glm_scale (mat4 1) ⟨scale, scale, scale⟩) world_coord draw_me0 hne hwf
    exact ⟨_, construct_object sqrt clear_mem loaded rot_matrix world_coord scale flat
      draw_me0 this w m1 hg⟩

end TransformClaims

/-- Claim C12, refuted as stated.  The model at `(0, 0, -5)` attaches the light at
address `0` at the relative position `(0, 1, 0)`; a second model, at `(1, 0, -5)`,
attaches the same light, which moves it to `(1, 1, -5)`; the first model then
attaches the light at address `1`.  Before and after this last call of
`attach_light` the attached lights of the first model are distinct `Light` objects,
yet after it the attached light at address `0` is at `(1, 1, -5)` and not at
`m2w_matrix * (0, 1, 0) = (0, 1, -5)`: `attach_light` places the new light only. -/
theorem attach_light_counterexample :
    lamp_attached.1.lights_distinct ∧ lamp_second.1.lights_distinct ∧
      lamp_second.1.attached_lights = [⟨0, ⟨0, 1, 0⟩⟩, ⟨1, ⟨0, 2, 0⟩⟩] ∧
      (lamp_second.2 0).position = ⟨1, 1, -5⟩ ∧
      vec3 (lamp_second.1.m2w_matrix.mulVec (vec4 ⟨0, 1, 0⟩ 1)) = ⟨0, 1, -5⟩ ∧
      ¬ lamp_second.1.lights_consistent lamp_second.2 := by
  have h3 : lamp_second.1.attached_lights = [⟨0, ⟨0, 1, 0⟩⟩, ⟨1, ⟨0, 2, 0⟩⟩] := by
    simp [lamp_second, lamp_attached, Model.attach_light, model_at, model_with_flags]
  have h4 : (lamp_second.2 0).position = ⟨1, 1, -5⟩ := by
    simp [lamp_second, lamp_shared, lamp_attached, Model.attach_light, set_light_position,
      model_at, model_with_flags, translate_mulVec]
  have h5 : vec3 (lamp_second.1.m2w_matrix.mulVec (vec4 ⟨0, 1, 0⟩ 1)) = ⟨0, 1, -5⟩ := by
    simp [lamp_second, lamp_attached, Model.attach_light, model_at, model_with_flags,
      translate_mulVec]
  refine ⟨?_, ?_, h3, h4, h5, ?_⟩
  · simp [lamp_attached, Model.attach_light, Model.lights_distinct, model_at,
      model_with_flags]
  · simp [Model.lights_distinct, h3]
  · intro h
    have h0 := h ⟨0, ⟨0, 1, 0⟩⟩ (by rw [h3]; exact List.mem_cons_self _ _)
    rw [h4, h5] at h0
    have hx := congrArg Vec3.x h0
    norm_num at hx

/-- Witness for the amended claim C12: the model at `(0, 0, -5)`, which has no
light, places the light it attaches at `m2w_matrix * (0, 1, 0)`; and after two calls
of `attach_light` followed by `move_to`, `rotate` and `move` its attached lights are
distinct and every one of them sits at `m2w_matrix * relative_pos`. -/
theorem lights_follow_transform_witness :
    (model_at ⟨0, 0, -5⟩ []).lights_consistent lights_on ∧
      (light_show.foldl (fun s op => op.apply quarter_turn_z s)
        (model_at ⟨0, 0, -5⟩ [], lights_on)).1.lights_distinct ∧
      (light_show.foldl (fun s op => op.apply quarter_turn_z s)
        (model_at ⟨0, 0, -5⟩ [], lights_on)).1.lights_consistent
        (light_show.foldl (fun s op => op.apply quarter_turn_z s)
          (model_at ⟨0, 0, -5⟩ [], lights_on)).2 ∧
      ((model_at ⟨0, 0, -5⟩ []).attach_light lights_on 0 ⟨0, 1, 0⟩).2 0 =
        { lights_on 0 with
          position := vec3 ((model_at ⟨0, 0, -5⟩ []).m2w_matrix.mulVec (vec4 ⟨0, 1, 0⟩ 1)) } :=
  have hc : (model_at ⟨0, 0, -5⟩ []).lights_consistent lights_on := by
    intro c hc
    simp [model_at, model_with_flags] at hc
  have hd : (light_show.foldl (fun s op => op.apply quarter_turn_z s)
      (model_at ⟨0, 0, -5⟩ [], lights_on)).1.lights_distinct := by
    simp [light_show, Mutator.apply, Model.attach_light, Model.move_to, Model.move,
      Model.rotate, Model.lights_distinct, model_at, model_with_flags]
  ⟨hc, hd, (lights_follow_transform quarter_turn_z (model_at ⟨0, 0, -5⟩ []) lights_on).2.2.2.2
    light_show hc hd,
    ((lights_follow_transform quarter_turn_z (model_at ⟨0, 0, -5⟩ []) lights_on).1 0
      ⟨0, 1, 0⟩).2.2.2.1⟩

/-- Witness for claim C14: the transform of the model at `(0, 0, -5)` is composed and
stays composed under the calls of `light_show`; the five-argument constructor
returns on a triangle. -/
theorem transform_recomposed_witness :
    (model_at ⟨0, 0, -5⟩ []).transform_composed ∧
      (light_show.foldl (fun s op => op.apply quarter_turn_z s)
        (model_at ⟨0, 0, -5⟩ [], lights_on)).1.transform_composed ∧
      ∃ w1, Model.construct (fun x => x) (fun me => me) [triangle_mesh] (mat4 1) ⟨0, 0, -5⟩ 1
        true false 0 world_empty = some w1 :=
  have hc : (model_at ⟨0, 0, -5⟩ []).transform_composed := by
    constructor
    · simp [model_at, model_with_flags, Mat4.mul, Mat4.mulVec, translate, mat4, Vec4.add,
        Vec4.smul]
    · rfl
  ⟨hc,
    (transform_recomposed quarter_turn_z (model_at ⟨0, 0, -5⟩ []) lights_on).2.2.2.2.2
      light_show hc,
    ((transform_recomposed quarter_turn_z (model_at ⟨0, 0, -5⟩ []) lights_on).2.2.2.2.1
      (fun x => x) (fun me => me) [triangle_mesh] (mat4 1) ⟨0, 0, -5⟩ 1 true false 0
      world_empty).2 (by simp)
      (by
        intro me hme
        rw [List.mem_singleton.mp hme]
        exact ⟨3, by decide, rfl, by rw [INT_MAX_val]; decide⟩)⟩

/-! ## Registration by the constructor -/

section RegistryClaims

variable {F : Type} [LinearOrderedField F]

theorem map_objects_fresh {G : Type} (objects : Nat → Model G) (this : Nat) (m : Model G)
    (l : List Nat) (h : this ∉ l) :
    l.map (fun a => if a = this then m else objects a) = l.map objects := by
  apply List.map_congr_left
  intro a ha
  have : a ≠ this := fun e => h (e ▸ ha)
  simp [this]

/-- Claim C15.  For meshes with vertices the five-argument constructor returns, and
the address `this` of the new model is appended at the end of exactly one registry:
of `loaded_models` when `flat` is false, the stored model then carrying the radius
computed by `generate_bounding_sphere`, and of `loaded_flat_models` when `flat` is
true, the stored model then carrying three times the computed radius.  The other
registry and every other object are unchanged; for a new address registries that
were disjoint stay disjoint, the address is in exactly the one registry, and the
dereferenced registries that culling works on grow by the new model at the end. -/
theorem construct_registers_once (sqrt : F → F) (clear_mem : Mesh F → Mesh F)
    (loaded : List (Mesh F)) (rot_matrix : Mat4 F) (world_coord : Vec3 F) (scale : F)
    (flat draw_me0 : Bool) (this : Nat) (w : World F) (hne : loaded ≠ [])
    (hwf : ∀ me ∈ loaded, me.has_vertices) :
    ∃ m1 w1,
      (Model.initialised loaded rot_matrix scale (glm_scale (mat4 1) ⟨scale, scale, scale⟩)
        world_coord draw_me0).generate_bounding_sphere sqrt = some m1 ∧
      Model.construct sqrt clear_mem loaded rot_matrix world_coord scale flat draw_me0 this w =
        some w1 ∧
      (flat = false →
        w1.loaded_models = w.loaded_models ++ [this] ∧
          w1.loaded_flat_models = w.loaded_flat_models ∧
          (w1.objects this).bounding_sphere_radius = m1.bounding_sphere_radius) ∧
      (flat = true →
        w1.loaded_flat_models = w.loaded_flat_models ++ [this] ∧
          w1.loaded_models = w.loaded_models ∧
          (w1.objects this).bounding_sphere_radius = m1.bounding_sphere_radius * 3) ∧
      (∀ a, a ≠ this → w1.objects a = w.objects a) ∧
      (this ∉ w.loaded_models → this ∉ w.loaded_flat_models →
        (this ∈ w1.loaded_models ↔ flat = false) ∧
          (this ∈ w1.loaded_flat_models ↔ flat = true) ∧
          (w.registries_disjoint → w1.registries_disjoint) ∧
          ∀ (st : Statics F) (lights : Nat → Light F),
            (w1.scene st lights).loaded_models =
                (w.scene st lights).loaded_models ++
                  (if flat = false then [w1.objects this] else []) ∧
              (w1.scene st lights).loaded_flat_models =
                (w.scene st lights).loaded_flat_models ++
                  (if flat = false then [] else [w1.objects this])) := by
  obtain ⟨m1, hg⟩ := construct_returns sqrt loaded rot_matrix scale
    (glm_scale (mat4 1) ⟨scale, scale, scale⟩) world_coord draw_me0 hne hwf
  refine ⟨m1, _, hg, construct_object sqrt clear_mem loaded rot_matrix world_coord scale flat
    draw_me0 this w m1 hg, ?_, ?_, ?_, ?_⟩
  · intro hf
    subst hf
    simp [Model.clear_meshes]
  · intro hf
    subst hf
    simp [Model.clear_meshes]
  · intro a ha
    simp [ha]
  · intro h1 h2
    refine ⟨?_, ?_, ?_, ?_⟩
    · cases flat <;> simp [h1]
    · cases flat <;> simp [h2]
    · intro hdis a
      have := hdis a
      cases flat
      · simp only [if_true, List.mem_append, List.mem_singleton]
        rintro ⟨ha | ha, hb⟩
        · exact this ⟨ha, hb⟩
        · exact h2 (ha ▸ hb)
      · simp only [Bool.true_eq_false, if_false, List.mem_append, List.mem_singleton]
        rintro ⟨ha, hb | hb⟩
        · exact this ⟨ha, hb⟩
        · exact h1 (hb ▸ ha)
    · intro st lights
      cases flat
      · simp [World.scene, map_objects_fresh _ _ _ _ h1, map_objects_fresh _ _ _ _ h2]
      · simp [World.scene, map_objects_fresh _ _ _ _ h1, map_objects_fresh _ _ _ _ h2]

end RegistryClaims

/-- Witness for claim C15: a flat model built from a triangle in the empty world. -/
theorem construct_registers_once_witness :
    ∃ m1 w1,
      (Model.initialised [triangle_mesh] (mat4 1) 1 (glm_scale (mat4 1) ⟨1, 1, 1⟩)
        ⟨0, 0, -5⟩ false).generate_bounding_sphere (fun x => x) = some m1 ∧
      Model.construct (fun x => x) (fun me => me) [triangle_mesh] (mat4 1) ⟨0, 0, -5⟩ 1 true
        false 0 world_empty = some w1 ∧
      ((true : Bool) = false →
        w1.loaded_models = world_empty.loaded_models ++ [0] ∧
          w1.loaded_flat_models = world_empty.loaded_flat_models ∧
          (w1.objects 0).bounding_sphere_radius = m1.bounding_sphere_radius) ∧
      ((true : Bool) = true →
        w1.loaded_flat_models = world_empty.loaded_flat_models ++ [0] ∧
          w1.loaded_models = world_empty.loaded_models ∧
          (w1.objects 0).bounding_sphere_radius = m1.bounding_sphere_radius * 3) ∧
      (∀ a, a ≠ 0 → w1.objects a = world_empty.objects a) ∧
      (0 ∉ world_empty.loaded_models → 0 ∉ world_empty.loaded_flat_models →
        (0 ∈ w1.loaded_models ↔ (true : Bool) = false) ∧
          (0 ∈ w1.loaded_flat_models ↔ (true : Bool) = true) ∧
          (world_empty.registries_disjoint → w1.registries_disjoint) ∧
          ∀ (st : Statics ℚ) (lights : Nat → Light ℚ),
            (w1.scene st lights).loaded_models =
                (world_empty.scene st lights).loaded_models ++
                  (if (true : Bool) = false then [w1.objects 0] else []) ∧
              (w1.scene st lights).loaded_flat_models =
                (world_empty.scene st lights).loaded_flat_models ++
                  (if (true : Bool) = false then [] else [w1.objects 0])) :=
  construct_registers_once (fun x => x) (fun me => me) [triangle_mesh] (mat4 1) ⟨0, 0, -5⟩ 1
    true false 0 world_empty (by simp)
    (by
      intro me hme
      rw [List.mem_singleton.mp hme]
      exact ⟨3, by decide, rfl, by rw [INT_MAX_val]; decide⟩)

/-- Witness for claim C16: in `scene_two` under `cam_front` the count is exact, and
the descriptor of the second drawable model is written at index `2`. -/
theorem models_drawn_double_count_witness :
    2 * scene_two.all_models.length < UINT_MOD ∧
      (cull_models cam_front scene_two).2.models_drawn =
        scene_two.all_models.countP (Model.drawable cam_front scene_two.lights) +
          scene_two.all_models.countP
            (fun m => decide ((m.cull_me cam_front scene_two.lights statics_zero).1 ≠ 0)) ∧
      ([model_at ⟨0, 0, -5⟩ []].countP (Model.drawable cam_front scene_two.lights) +
          [model_at ⟨0, 0, -5⟩ []].countP
            (fun m1 => decide ((m1.cull_me cam_front scene_two.lights statics_zero).1 ≠ 0))) %
          UINT_MOD = 2 ∧
      ∃ ws1 ws2, (cull_models cam_front scene_two).2.write_log =
          scene_two.write_log ++ ws1 ++
            (([model_at ⟨0, 0, -5⟩ []].countP (Model.drawable cam_front scene_two.lights) +
                [model_at ⟨0, 0, -5⟩ []].countP
                  (fun m1 =>
                    decide ((m1.cull_me cam_front scene_two.lights statics_zero).1 ≠ 0))) %
                UINT_MOD,
              (model_at ⟨1, 0, -5⟩ []).descriptor cam_front) :: ws2 ∧
        ws1.length = [model_at ⟨0, 0, -5⟩ []].countP (Model.drawable cam_front scene_two.lights) :=
  have hsize : 2 * scene_two.all_models.length < UINT_MOD := by
    simp [scene_two, Scene.all_models, UINT_MOD]
  have hd : (model_at ⟨1, 0, -5⟩ []).drawable cam_front scene_two.lights = true := by
    simp [model_at, model_with_flags_drawable, cam_front_sees, first_light_active]
  ⟨hsize, (models_drawn_double_count cam_front scene_two statics_zero).2.1 hsize,
    by
      simp [cull_me_eq, model_at, model_with_flags_drawable, model_with_flags_drawn_meshes,
        cam_front_sees, first_light_active, UINT_MOD],
    (models_drawn_double_count cam_front scene_two statics_zero).2.2
      [model_at ⟨0, 0, -5⟩ []] [] (model_at ⟨1, 0, -5⟩ []) rfl hd⟩

end Emerald
